import Mathlib

/-!
Query translation in `server/src/metadata.cpp` of bolt, and the OAuth1
normalized parameters of `casablanca/src/http/oauth/oauth1.cpp`.

A shallow embedding of `Metadata::getMysqlQueryResults`, of the ad-hoc filter
of `Metadata::getMysqlEntities` and `Metadata::getAzureEntities`, of
`Metadata::getCondition`, `Metadata::getMysqlEntity`,
`Metadata::getAdministration`, of the two entity serializers and of
`oauth1_config::_build_normalized_parameters`, followed by theorems about them.

* JSON values are those of the casablanca JSON library, reduced to what
  `metadata.cpp` observes of them through `find`, `has_field`, `at`, `is_*`
  and `as_*`.
* `MysqlQuery` is the relational query builder.  Its class is declared in
  `mysql_query.h`; here a query is the sequence of builder calls made on it, in
  call order, so that every statement about "the built query" is a statement
  about the calls `metadata.cpp` makes.
* `string_t` is `String`.
-/

set_option autoImplicit false

/-! ## JSON values -/

/-- IEEE-754 double, kept as its bit pattern: the code only copies doubles. -/
structure Double where
  bits : Nat
deriving DecidableEq, Repr

/-- The two ways in which `Metadata::getMysqlQueryResults` stops before it
runs the query: an explicit `return false`, or a `json_exception` raised by an
accessor of the JSON library and not caught in `metadata.cpp`. -/
inductive Stop where
  | return_false
  | json_exception
deriving DecidableEq, Repr

/-- A C++ `int`: 32 bits, two's complement. -/
structure c_int where
  val : Int
  in_range : -2147483648 ≤ val ∧ val ≤ 2147483647

namespace json

/-- A JSON value (`json::value`).  `integer n` is a number for which
`is_integer()` holds, n being the integer it stores; `double d` is any other
number.  An object is its sequence of fields. -/
inductive value where
  | null
  | boolean (b : Bool)
  | integer (n : Int)
  | double (d : Double)
  | string (s : String)
  | array (elements : List value)
  | object (fields : List (String × value))
deriving Repr

/-- A JSON object (`json::object`): the fields of an object value. -/
abbrev object := List (String × value)

/-- The lookup `json::object::find(key)`: the value stored under `key`, `none`
standing for the end iterator. -/
def find (o : object) (key : String) : Option value :=
  match o with
  | [] => none
  | (k, v) :: rest => if k = key then some v else find rest key

namespace value

def is_object : value → Bool
  | object _ => true
  | _ => false

def is_array : value → Bool
  | array _ => true
  | _ => false

def is_string : value → Bool
  | string _ => true
  | _ => false

def is_integer : value → Bool
  | integer _ => true
  | _ => false

def is_number : value → Bool
  | integer _ => true
  | double _ => true
  | _ => false

def is_boolean : value → Bool
  | boolean _ => true
  | _ => false

/-- The test `json::value::has_field(key)`: false on every value that is not an
object. -/
def has_field (v : value) (key : String) : Bool :=
  match v with
  | object fields => (find fields key).isSome
  | _ => false

/-- The accessor `json::value::as_string()`: the string of a string value; it
raises `json_exception` on a value of any other kind. -/
def as_string : value → Except Stop String
  | string s => .ok s
  | _ => .error .json_exception

/-- The accessor `json::value::at(key)`: the field of an object; it raises
`json_exception` when the value is not an object or has no such field. -/
def «at» (v : value) (key : String) : Except Stop value :=
  match v with
  | object fields =>
    match find fields key with
    | some x => .ok x
    | none => .error .json_exception
  | _ => .error .json_exception

end value

/-- The assignment `obj[key] = v` on an object built by `json::value::object()`:
the value under an existing key is replaced, a new key is inserted at its place
in the ascending order of keys (the order of `std::basic_string`, lexicographic
on the characters). -/
def set_field (o : object) (key : String) (v : value) : object :=
  match o with
  | [] => [(key, v)]
  | (k, x) :: rest =>
    if k = key then (key, v) :: rest
    else if key.data < k.data then (key, v) :: (k, x) :: rest
    else (k, x) :: set_field rest key v

/-- The assignment `arr[i] = v` on a JSON array: an array shorter than `i + 1`
is first extended with null values. -/
def set_index (a : List value) (i : Nat) (v : value) : List value :=
  if i < a.length then a.set i v
  else a ++ List.replicate (i - a.length) value.null ++ [v]

/-- The accessor `json::value::as_integer()` on an integral number that stores
n: the stored integer converted to `int`, that is, reduced modulo 2^32 into the
range of `int`.  An integer within that range is returned as it is. -/
def as_integer (n : Int) : c_int :=
  { val := (n + 2147483648) % 4294967296 - 2147483648, in_range := by omega }

end json

/-- The conversion `std::to_wstring(int)`: the decimal rendering of an `int`. -/
def to_wstring (n : c_int) : String := toString n.val

/-! ## The query builder -/

/-- One call on a `MysqlQuery` builder.  `selectAll` is `select()` without
argument, `limitOffset offset limit` is the two-argument `limit(offset, limit)`,
`from_` and `where_` are `from` and `where`; `rightJoin` is the right-join call,
which `metadata.cpp` never makes. -/
inductive MysqlCall where
  | select (columns : String)
  | selectAll
  | selectDistinct (columns : String)
  | from_ (table : String)
  | join (table conditions : String)
  | leftJoin (table conditions : String)
  | rightJoin (table conditions : String)
  | naturalJoin (table : String)
  | crossJoin (table : String)
  | where_ (condition : String)
  | andWhere (condition : String)
  | orWhere (condition : String)
  | group (columns : String)
  | having (condition : String)
  | munion (query : String)
  | order (columns : String)
  | limitOffset (offset limit : String)
  | limit (limit : String)
deriving DecidableEq, Repr

/-- A query under construction: the builder calls made so far, oldest first. -/
abbrev MysqlQuery := List MysqlCall

/-! ## `Metadata::getMysqlQueryResults`: building the query (lines 165-491)

Each clause of the function is a definition that yields the builder calls the
clause makes, or the way in which the function stops there. -/

namespace Metadata

open json

/-- A clause of the form `if (iter != objend) query.f(iter->second.as_string());`
(Distinct, Where, Group, Having, Union, Order). -/
def stringClause (f : String → MysqlCall) (iter : Option value) : Except Stop MysqlQuery :=
  match iter with
  | some v => do
    let s ← v.as_string
    pure [f s]
  | none => pure []

/-- Lines 193-200: `select(Select)` when `Select` is there, `select()` otherwise. -/
def selectClause (iter_select : Option value) : Except Stop MysqlQuery :=
  match iter_select with
  | some v => do
    let s ← v.as_string
    pure [MysqlCall.select s]
  | none => pure [MysqlCall.selectAll]

/-- Lines 203-210: `from(From)`, or `return false` when there is no `From`. -/
def fromClause (iter_from : Option value) : Except Stop MysqlQuery :=
  match iter_from with
  | some v => do
    let s ← v.as_string
    pure [MysqlCall.from_ s]
  | none => .error Stop.return_false

/-- One join entry (lines 219-229, 236-246 and their copies): with both fields
present the builder method `f` is called on their strings, otherwise
`return false`. -/
def joinEntry (f : String → String → MysqlCall) (portionobj : value) : Except Stop MysqlQuery :=
  if portionobj.has_field "TableName" && portionobj.has_field "Conditions" then do
    let tablename ← portionobj.at "TableName"
    let conditions ← portionobj.at "Conditions"
    let t ← tablename.as_string
    let c ← conditions.as_string
    pure [f t c]
  else .error Stop.return_false

/-- The loop `for (auto &portionobj : join.as_array())` over join entries. -/
def joinLoop (f : String → String → MysqlCall) : List value → Except Stop MysqlQuery
  | [] => pure []
  | portionobj :: rest => do
    let a ← joinEntry f portionobj
    let b ← joinLoop f rest
    pure (a ++ b)

/-- A `Join`, `LeftJoin` or `RightJoin` block (lines 212-253, 255-296, 298-339):
`single` is the builder method called in the object branch, `looped` the one
called in the array branch. -/
def joinClause (single looped : String → String → MysqlCall) (iter : Option value) :
    Except Stop MysqlQuery :=
  match iter with
  | none => pure []
  | some (value.object fields) => joinEntry single (value.object fields)
  | some (value.array elements) => joinLoop looped elements
  | some _ => .error Stop.return_false

/-- The loop `for (auto &portion : v.as_array()) query.f(portion.as_string());`. -/
def stringLoop (f : String → MysqlCall) : List value → Except Stop MysqlQuery
  | [] => pure []
  | portion :: rest => do
    let s ← portion.as_string
    let b ← stringLoop f rest
    pure (f s :: b)

/-- A `NaturalJoin` or `CrossJoin` block (lines 342-357, 359-374). -/
def tableClause (f : String → MysqlCall) (iter : Option value) : Except Stop MysqlQuery :=
  match iter with
  | none => pure []
  | some (value.array elements) => stringLoop f elements
  | some _ => .error Stop.return_false

/-- An `AndWhere` or `OrWhere` block (lines 381-400, 402-421): `f` is the
builder method the block calls. -/
def extraWhereClause (f : String → MysqlCall) (iter : Option value) : Except Stop MysqlQuery :=
  match iter with
  | none => pure []
  | some (value.array elements) => stringLoop f elements
  | some (value.string s) => pure [f s]
  | some _ => .error Stop.return_false

/-- Lines 448-459 and 461-472: a `Limit` or `Offset` value as a string; an
integer is read with `as_integer()` and rendered with `to_wstring`. -/
def limitString (v : value) : Except Stop String :=
  match v with
  | value.string s => pure s
  | value.integer n => pure (to_wstring (as_integer n))
  | _ => .error Stop.return_false

/-- Lines 443-491.  With both fields `limit(offset, limit)` is called.  With
`Limit` alone an integer is read with `as_integer()` and passed to `limit`, a
string is only stored in the local variable `limit`. -/
def limitClause (iter_limit iter_offset : Option value) : Except Stop MysqlQuery :=
  match iter_offset, iter_limit with
  | some off, some lim => do
    let limit ← limitString lim
    let offset ← limitString off
    pure [MysqlCall.limitOffset offset limit]
  | none, some lim =>
    match lim with
    | value.string _ => pure []
    | value.integer n => pure [MysqlCall.limit (to_wstring (as_integer n))]
    | _ => .error Stop.return_false
  | _, none => pure []

/-- Lines 187-441: every clause before `Limit`/`Offset`, in source order. -/
def buildClauses (query_obj : object) : Except Stop MysqlQuery := do
  let c_distinct ← stringClause MysqlCall.selectDistinct (find query_obj "Distinct")
  let c_select ← selectClause (find query_obj "Select")
  let c_from ← fromClause (find query_obj "From")
  let c_join ← joinClause MysqlCall.join MysqlCall.join (find query_obj "Join")
  let c_leftjoin ← joinClause MysqlCall.leftJoin MysqlCall.join (find query_obj "LeftJoin")
  let c_rightjoin ← joinClause MysqlCall.join MysqlCall.join (find query_obj "RightJoin")
  let c_naturaljoin ← tableClause MysqlCall.naturalJoin (find query_obj "NaturalJoin")
  let c_crossjoin ← tableClause MysqlCall.crossJoin (find query_obj "CrossJoin")
  let c_where ← stringClause MysqlCall.where_ (find query_obj "Where")
  let c_andwhere ← extraWhereClause MysqlCall.andWhere (find query_obj "AndWhere")
  let c_orwhere ← extraWhereClause MysqlCall.andWhere (find query_obj "OrWhere")
  let c_group ← stringClause MysqlCall.group (find query_obj "Group")
  let c_having ← stringClause MysqlCall.having (find query_obj "Having")
  let c_union ← stringClause MysqlCall.munion (find query_obj "Union")
  let c_order ← stringClause MysqlCall.order (find query_obj "Order")
  pure (c_distinct ++ c_select ++ c_from ++ c_join ++ c_leftjoin ++ c_rightjoin
    ++ c_naturaljoin ++ c_crossjoin ++ c_where ++ c_andwhere ++ c_orwhere
    ++ c_group ++ c_having ++ c_union ++ c_order)

/-- Lines 165-491: the query as it stands when `queryAll` is reached, or the
way in which the function stopped before. -/
def buildQuery (query_obj : object) : Except Stop MysqlQuery := do
  let clauses ← buildClauses query_obj
  let c_limit ← limitClause (find query_obj "Limit") (find query_obj "Offset")
  pure (clauses ++ c_limit)

end Metadata

/-! ## Rows and their serialization (lines 666-719) -/

/-- The formats of `utility::datetime::to_string`; `RFC_1123` is the default
argument. -/
inductive date_format where
  | RFC_1123
  | ISO_8601
deriving DecidableEq, Repr

/-- A point in time (`utility::datetime`), kept as its two renderings. -/
structure datetime where
  rfc_1123 : String
  iso_8601 : String
deriving DecidableEq, Repr

/-- The rendering `datetime::to_string(format)`. -/
def datetime.to_string (t : datetime) (format : date_format) : String :=
  match format with
  | date_format.RFC_1123 => t.rfc_1123
  | date_format.ISO_8601 => t.iso_8601

/-- The kinds tested by the switch of `generateAzureEntityMeta`; `other` is any
kind that reaches its `default:` label. -/
inductive edm_type where
  | string
  | double_floating_point
  | datetime
  | boolean
  | int64
  | binary
  | guid
  | int32
  | other (code : Nat)
deriving DecidableEq, Repr

/-- A typed property: its kind and what each accessor used by the serializer
yields for it. -/
structure entity_property where
  property_type : edm_type
  string_value : String
  double_value : Double
  datetime_value : datetime
  boolean_value : Bool
  int64_value : Int
  int32_value : Int
deriving DecidableEq, Repr

/-- A row as the serializer reads it: `properties()` in iteration order,
`timestamp()`, `partition_key()` and `row_key()`. -/
structure table_entity where
  properties : List (String × entity_property)
  timestamp : datetime
  partition_key : String
  row_key : String
deriving DecidableEq, Repr

namespace Metadata

open json

/-- The switch of lines 679-707: the JSON value stored for one property. -/
def azurePropertyValue (propery : entity_property) : value :=
  match propery.property_type with
  | edm_type.string => value.string propery.string_value
  | edm_type.double_floating_point => value.double propery.double_value
  | edm_type.datetime => value.string (propery.datetime_value.to_string date_format.RFC_1123)
  | edm_type.boolean => value.boolean propery.boolean_value
  | edm_type.int64 => value.integer propery.int64_value
  | edm_type.binary => value.string propery.string_value
  | edm_type.guid => value.string propery.string_value
  | edm_type.int32 => value.integer propery.int32_value
  | edm_type.other _ => value.string propery.string_value

/-- Lines 673-711: the JSON object of one row. -/
def azureEntity (ait : table_entity) : object :=
  let entity : object := []
  let entity := ait.properties.foldl
    (fun entity pit => set_field entity pit.1 (azurePropertyValue pit.2)) entity
  let entity := set_field entity "Timestamp"
    (value.string (ait.timestamp.to_string date_format.ISO_8601))
  let entity := set_field entity "PartitionKey" (value.string ait.partition_key)
  let entity := set_field entity "RowKey" (value.string ait.row_key)
  entity

/-- The loop of lines 671-713 from the row at index `i` on: each row's object is
stored with `entities[i] = entity`. -/
def azureEntityLoop : List table_entity → Nat → List value → List value
  | [], _, entities => entities
  | ait :: rest, i, entities =>
    azureEntityLoop rest (i + 1) (set_index entities i (value.object (azureEntity ait)))

/-- The serializer `Metadata::generateAzureEntityMeta` (lines 666-719). -/
def generateAzureEntityMeta (entity_vector : List table_entity) : value :=
  let entities := azureEntityLoop entity_vector 0 []
  let replyObj : object := []
  value.object (set_field replyObj "value" (value.array entities))

end Metadata

/-- The kinds tested by the switch of `generateEntityMeta`; `other` is any kind
that reaches its `default:` label. -/
inductive myedm_type where
  | double_floating_point
  | int64
  | int32
  | other (code : Nat)
deriving DecidableEq, Repr

/-- A typed property of a relational row (`mysql_property`): its kind and what
each accessor used by `generateEntityMeta` yields for it. -/
structure mysql_property where
  property_type : myedm_type
  double_value : Double
  int64_value : Int
  int32_value : Int
  string_value : String
deriving DecidableEq, Repr

/-- A row as `generateEntityMeta` reads it: `properties()` in iteration order. -/
structure mysql_row where
  properties : List (String × mysql_property)
deriving DecidableEq, Repr

namespace Metadata

open json

/-- The switch of lines 642-655: the JSON value stored for one property. -/
def mysqlPropertyValue (propery : mysql_property) : value :=
  match propery.property_type with
  | myedm_type.double_floating_point => value.double propery.double_value
  | myedm_type.int64 => value.integer propery.int64_value
  | myedm_type.int32 => value.integer propery.int32_value
  | myedm_type.other _ => value.string propery.string_value

/-- Lines 636-656: the JSON object of one row. -/
def mysqlEntity (ait : mysql_row) : object :=
  let entity : object := []
  ait.properties.foldl
    (fun entity pit => set_field entity pit.1 (mysqlPropertyValue pit.2)) entity

/-- The loop of lines 634-658 from the row at index `i` on. -/
def mysqlEntityLoop : List mysql_row → Nat → List value → List value
  | [], _, entities => entities
  | ait :: rest, i, entities =>
    mysqlEntityLoop rest (i + 1) (set_index entities i (value.object (mysqlEntity ait)))

/-- The serializer `Metadata::generateEntityMeta` (lines 628-664). -/
def generateEntityMeta (entity_vector : List mysql_row) : value :=
  let entities := mysqlEntityLoop entity_vector 0 []
  let replyObj : object := []
  value.object (set_field replyObj "value" (value.array entities))

/-! ## `Metadata::getMysqlQueryResults` as a whole (lines 163-499) -/

/-- What a call of `getMysqlQueryResults` leaves behind: `returned` is the
value returned (`none` when a `json_exception` left the function instead),
`result` is the caller's out-parameter after the call, `executed` lists the
queries on which `queryAll` was called. -/
structure Outcome where
  returned : Option Bool
  result : value
  executed : List MysqlQuery

/-- The function `Metadata::getMysqlQueryResults(query_obj, result)`.  `queryAll`
is the backend: the rows it returns for a built query. -/
def getMysqlQueryResults (queryAll : MysqlQuery → List table_entity)
    (query_obj : object) (result : value) : Outcome :=
  match buildQuery query_obj with
  | .error Stop.return_false => { returned := some false, result := result, executed := [] }
  | .error Stop.json_exception => { returned := none, result := result, executed := [] }
  | .ok query =>
    let query_result := queryAll query
    { returned := some true, result := generateAzureEntityMeta query_result, executed := [query] }

end Metadata

/-! ## The ad-hoc filter (lines 87-161, 557-626) -/

/-- The lookup `std::map::find(key)`: the mapped string, `none` standing for
the end iterator. -/
def map_find (m : List (String × String)) (key : String) : Option String :=
  match m with
  | [] => none
  | (k, v) :: rest => if k = key then some v else map_find rest key

/-- One call on an `AzureQuery`; `create` is its constructor. -/
inductive AzureCall where
  | create (table_name : String)
  | select (columns : List String)
  | setFilterCondition (property_name condition value : String)
  | setOrFilterCondition (property_name condition value : String)
  | setAndFilterCondition (property_name condition value : String)
deriving DecidableEq, Repr

/-- The struct `AzureFilter` of lines 15-20; its strings start empty. -/
structure AzureFilter where
  property_name : String := ""
  condition : String := ""
  value : String := ""
deriving DecidableEq, Repr

namespace Metadata

/-- The function `Metadata::getCondition` (lines 613-626). -/
def getCondition (condition : String) : String :=
  if condition = "le" then " <= "
  else if condition = " lt " then " < "
  else if condition = "ge" then " >= "
  else if condition = "gt" then " > "
  else if condition = "ne" then " != "
  else " = "

/-- Lines 96-106: the selected columns, separated by commas (for a non-empty
`select`). -/
def joinColumns : List String → String
  | [] => ""
  | [column] => column
  | column :: rest => column ++ "," ++ joinColumns rest

/-- Lines 117-128 and 130-140: the text of a condition, built only when the
three keys are all in the map; the local string stays empty otherwise. -/
def whereText (filter_conditions : List (String × String)) (attr con val : String) : String :=
  match map_find filter_conditions attr, map_find filter_conditions con,
      map_find filter_conditions val with
  | some a, some c, some v => a ++ getCondition c ++ v
  | _, _, _ => ""

/-- Lines 94-108: `select(columns)` when `UrlUtils::getSelect` succeeds. -/
def mysqlSelectCalls (select : Option (List String)) : MysqlQuery :=
  match select with
  | some columns => [MysqlCall.select (joinColumns columns)]
  | none => []

/-- Lines 113-157: the builder calls of the filter block. -/
def mysqlFilterCalls (filter_conditions : List (String × String)) : MysqlQuery :=
  let firstwhere := whereText filter_conditions "first_attr" "first_con" "first_val"
  let secondwhere := whereText filter_conditions "second_attr" "second_con" "second_val"
  [MysqlCall.where_ firstwhere]
    ++ (match map_find filter_conditions "join" with
      | some join =>
        (if join = "or" then [MysqlCall.orWhere secondwhere] else [])
          ++ (if join = "and" then [MysqlCall.andWhere secondwhere] else [])
      | none => [])

/-- Lines 90-158 of `Metadata::getMysqlEntities`: the query as it stands when
`queryAll` is reached.  `select` is what `UrlUtils::getSelect` yields (`none`
when it returns false), `filter_conditions` what `UrlUtils::getFilter` yields. -/
def getMysqlEntitiesQuery (table_name : String) (select : Option (List String))
    (filter_conditions : Option (List (String × String))) : MysqlQuery :=
  [MysqlCall.from_ table_name]
    ++ mysqlSelectCalls select
    ++ (match filter_conditions with
      | some m => mysqlFilterCalls m
      | none => [])

/-- Lines 574-581 and 583-590: a filter, filled only when the three keys are
all in the map. -/
def azureFilter (filter_conditions : List (String × String)) (attr con val : String) :
    AzureFilter :=
  match map_find filter_conditions attr, map_find filter_conditions con,
      map_find filter_conditions val with
  | some a, some c, some v => { property_name := a, condition := c, value := v }
  | _, _, _ => {}

/-- Lines 563-566: `select(select)` when `UrlUtils::getSelect` succeeds. -/
def azureSelectCalls (select : Option (List String)) : List AzureCall :=
  match select with
  | some columns => [AzureCall.select columns]
  | none => []

/-- Lines 571-607: the calls of the filter block of `getAzureEntities`. -/
def azureFilterCalls (filter_conditions : List (String × String)) : List AzureCall :=
  let first_filter := azureFilter filter_conditions "first_attr" "first_con" "first_val"
  let second_filter := azureFilter filter_conditions "second_attr" "second_con" "second_val"
  [AzureCall.setFilterCondition first_filter.property_name first_filter.condition
      first_filter.value]
    ++ (match map_find filter_conditions "join" with
      | some join =>
        (if join = "or" then [AzureCall.setOrFilterCondition second_filter.property_name
            second_filter.condition second_filter.value] else [])
          ++ (if join = "and" then [AzureCall.setAndFilterCondition second_filter.property_name
            second_filter.condition second_filter.value] else [])
      | none => [])

/-- Lines 559-608 of `Metadata::getAzureEntities`: the calls made on the
`AzureQuery` before `queryAll`. -/
def getAzureEntitiesQuery (table_name : String) (select : Option (List String))
    (filter_conditions : Option (List (String × String))) : List AzureCall :=
  [AzureCall.create table_name]
    ++ azureSelectCalls select
    ++ (match filter_conditions with
      | some m => azureFilterCalls m
      | none => [])

/-- The function `Metadata::getAzureEntities` (lines 557-611). -/
def getAzureEntities (queryAll : List AzureCall → List table_entity) (table_name : String)
    (select : Option (List String)) (filter_conditions : Option (List (String × String))) :
    json.value :=
  generateAzureEntityMeta (queryAll (getAzureEntitiesQuery table_name select filter_conditions))

end Metadata

/-! ## Key lookup and administration (lines 73-85, 501-555) -/

namespace Metadata

end Metadata

/-! ## OAuth1: `oauth1_config::_build_normalized_parameters` (oauth1.cpp, lines 177-214) -/

/-- The constants of `oauth1_strings` used by the function; they are declared
in `http_constants.dat`. -/
structure oauth1_strings where
  version : String
  consumer_key : String
  token : String
  signature_method : String
  timestamp : String
  nonce : String

/-- What the function reads of the `oauth1_config`: `consumer_key()`,
`method()` and `m_token.access_token()`. -/
structure oauth1_config where
  consumer_key : String
  method : String
  access_token : String

/-- What the function reads of the `oauth1_state`. -/
structure oauth1_state where
  timestamp : String
  nonce : String
  extra_key : String
  extra_value : String

namespace oauth1_config

/-- Lines 183-188: one item `first=second` per entry of the query map. -/
def queryItems (queries_map : List (String × String)) : List String :=
  queries_map.map (fun query => query.1 ++ "=" ++ query.2)

/-- Lines 181-203: the vector `queries` before it is sorted. -/
def pushedQueries (strings : oauth1_strings) (config : oauth1_config)
    (queries_map : List (String × String)) (state : oauth1_state) : List String :=
  let queries := queryItems queries_map
  let queries := queries ++ [strings.version ++ "=1.0"]
  let queries := queries ++ [strings.consumer_key ++ "=" ++ config.consumer_key]
  let queries :=
    if ¬ config.access_token = "" then queries ++ [strings.token ++ "=" ++ config.access_token]
    else queries
  let queries := queries ++ [strings.signature_method ++ "=" ++ config.method]
  let queries := queries ++ [strings.timestamp ++ "=" ++ state.timestamp]
  let queries := queries ++ [strings.nonce ++ "=" ++ state.nonce]
  let queries :=
    if ¬ state.extra_key = "" then queries ++ [state.extra_key ++ "=" ++ state.extra_value]
    else queries
  queries

/-- Insertion of a string at its place in an ascending list. -/
def insertSorted (x : String) : List String → List String
  | [] => [x]
  | y :: ys => if y.data < x.data then y :: insertSorted x ys else x :: y :: ys

/-- Line 206, `sort(queries.begin(), queries.end())`: the strings in ascending
order of `std::basic_string` (lexicographic on the characters).  The order is
total, so the sorted vector does not depend on the sorting algorithm. -/
def sort : List String → List String
  | [] => []
  | x :: xs => insertSorted x (sort xs)

/-- Lines 207-212: every string but the last is written followed by "&", then
the last one is written. -/
def joinQueries : List String → String
  | [] => ""
  | [last] => last
  | i :: rest => i ++ "&" ++ joinQueries rest

/-- Lines 181-212: the string handed to `uri::encode_data_string`.
`queries_map` is the map that `uri::split_query` yields for the URI's query. -/
def normalizedParameters (strings : oauth1_strings) (config : oauth1_config)
    (queries_map : List (String × String)) (state : oauth1_state) : String :=
  joinQueries (sort (pushedQueries strings config queries_map state))

/-- The function `oauth1_config::_build_normalized_parameters`; `encode` is
`uri::encode_data_string`. -/
def _build_normalized_parameters (encode : String → String) (strings : oauth1_strings)
    (config : oauth1_config) (queries_map : List (String × String)) (state : oauth1_state) :
    String :=
  encode (normalizedParameters strings config queries_map state)

end oauth1_config

/-! ## Shapes of documents -/

namespace Metadata

open json

/-- A field that is absent or holds a JSON string. -/
def stringOrAbsent : Option value → Bool
  | none => true
  | some (value.string _) => true
  | some _ => false

/-- A field that holds a JSON string. -/
def stringPresent : Option value → Bool
  | some (value.string _) => true
  | _ => false

/-- A join entry that has both `TableName` and `Conditions`. -/
def entryComplete (e : value) : Bool :=
  e.has_field "TableName" && e.has_field "Conditions"

/-- A join entry whose `TableName` and `Conditions` are there and are strings. -/
def entryValid (e : value) : Bool :=
  match e.at "TableName", e.at "Conditions" with
  | .ok (value.string _), .ok (value.string _) => true
  | _, _ => false

/-- A join field with an entry that lacks `TableName` or `Conditions` (as the
single object or as an element of the array), or that is neither an object nor an
array. -/
def joinRejected : Option value → Bool
  | none => false
  | some (value.object fields) => !entryComplete (value.object fields)
  | some (value.array elements) => elements.any (fun e => !entryComplete e)
  | some _ => true

/-- A join field in which every entry that has both fields holds strings in
them. -/
def joinTyped : Option value → Bool
  | some (value.object fields) =>
    !entryComplete (value.object fields) || entryValid (value.object fields)
  | some (value.array elements) => elements.all (fun e => !entryComplete e || entryValid e)
  | _ => true

/-- A join field that is absent, a valid entry, or an array of valid entries. -/
def joinValid : Option value → Bool
  | none => true
  | some (value.object fields) => entryValid (value.object fields)
  | some (value.array elements) => elements.all entryValid
  | some _ => false

/-- A `NaturalJoin`/`CrossJoin` field that is absent or an array of strings. -/
def tablesValid : Option value → Bool
  | none => true
  | some (value.array elements) => elements.all value.is_string
  | some _ => false

/-- An `AndWhere`/`OrWhere` field that is absent, a string or an array of
strings. -/
def extraWhereValid : Option value → Bool
  | none => true
  | some (value.string _) => true
  | some (value.array elements) => elements.all value.is_string
  | some _ => false

/-- A document that is valid in every clause other than `Limit` and `Offset`:
`From` is a string, each string-valued clause is absent or a string, each join
field is well-formed. -/
def validClauses (query_obj : object) : Bool :=
  stringOrAbsent (find query_obj "Distinct")
  && stringOrAbsent (find query_obj "Select")
  && stringPresent (find query_obj "From")
  && joinValid (find query_obj "Join")
  && joinValid (find query_obj "LeftJoin")
  && joinValid (find query_obj "RightJoin")
  && tablesValid (find query_obj "NaturalJoin")
  && tablesValid (find query_obj "CrossJoin")
  && stringOrAbsent (find query_obj "Where")
  && extraWhereValid (find query_obj "AndWhere")
  && extraWhereValid (find query_obj "OrWhere")
  && stringOrAbsent (find query_obj "Group")
  && stringOrAbsent (find query_obj "Having")
  && stringOrAbsent (find query_obj "Union")
  && stringOrAbsent (find query_obj "Order")

/-- A `Limit` or `Offset` value as the text the code puts into a limit clause:
a string as it is, an integer as the decimal rendering of the `int` that
`as_integer()` reads from it, nothing for any other value. -/
def limitText : value → Option String
  | value.string s => some s
  | value.integer n => some (to_wstring (as_integer n))
  | _ => none

/-- The decimal rendering of an integer. -/
def decimal (n : Int) : String := toString n

/-- A `Limit` or `Offset` value as the specification renders it: a string as
it is, an integer in decimal, nothing for any other value. -/
def decimalText : value → Option String
  | value.string s => some s
  | value.integer n => some (decimal n)
  | _ => none

/-- A value that is not an integer outside the range of the C++ `int`. -/
def fitsInt : value → Bool
  | value.integer n => decide (-2147483648 ≤ n) && decide (n ≤ 2147483647)
  | _ => true

/-- The calls that set the select list. -/
def isSelectCall : MysqlCall → Bool
  | MysqlCall.select _ => true
  | MysqlCall.selectAll => true
  | MysqlCall.selectDistinct _ => true
  | _ => false

/-- The calls that set a limit. -/
def isLimitCall : MysqlCall → Bool
  | MysqlCall.limitOffset _ _ => true
  | MysqlCall.limit _ => true
  | _ => false

/-- The `where` calls. -/
def isWhereCall : MysqlCall → Bool
  | MysqlCall.where_ _ => true
  | _ => false

/-- The `andWhere` and `orWhere` calls. -/
def isExtraWhereCall : MysqlCall → Bool
  | MysqlCall.andWhere _ => true
  | MysqlCall.orWhere _ => true
  | _ => false

/-- The fields a wide-column row is expected to give: its properties with
their JSON values, then `Timestamp`, `PartitionKey` and `RowKey`. -/
def azureFields (ait : table_entity) : object :=
  ait.properties.map (fun pit => (pit.1, azurePropertyValue pit.2))
    ++ [("Timestamp", value.string (ait.timestamp.to_string date_format.ISO_8601)),
        ("PartitionKey", value.string ait.partition_key),
        ("RowKey", value.string ait.row_key)]

/-- The wide-column row of the specification's example: the property
Name = "Bob" (a string), partition key "P1", row key "R1", timestamp
2024-01-01T00:00:00Z. -/
def bobEntity : table_entity :=
  { properties := [("Name",
      { property_type := edm_type.string, string_value := "Bob", double_value := { bits := 0 },
        datetime_value := { rfc_1123 := "", iso_8601 := "" }, boolean_value := false,
        int64_value := 0, int32_value := 0 })],
    timestamp :=
      { rfc_1123 := "Mon, 01 Jan 2024 00:00:00 GMT", iso_8601 := "2024-01-01T00:00:00Z" },
    partition_key := "P1",
    row_key := "R1" }

/-- A wide-column row with one datetime property, `When`, holding the same
instant as the row's timestamp, 2024-01-01T00:00:00Z. -/
def newYearEntity : table_entity :=
  { properties := [("When",
      { property_type := edm_type.datetime, string_value := "", double_value := { bits := 0 },
        datetime_value :=
          { rfc_1123 := "Mon, 01 Jan 2024 00:00:00 GMT", iso_8601 := "2024-01-01T00:00:00Z" },
        boolean_value := false, int64_value := 0, int32_value := 0 })],
    timestamp :=
      { rfc_1123 := "Mon, 01 Jan 2024 00:00:00 GMT", iso_8601 := "2024-01-01T00:00:00Z" },
    partition_key := "P1",
    row_key := "R1" }

/-- A triple of the ad-hoc filter as the specification resolves it: attribute,
operator code and value when the three keys are all present, nothing
otherwise. -/
def resolveTriple (m : List (String × String)) (attr con val : String) :
    Option (String × String × String) :=
  match map_find m attr, map_find m con, map_find m val with
  | some a, some c, some v => some (a, c, v)
  | _, _, _ => none

/-- The relational text of a triple: attribute ++ getCondition(code) ++ value
for a resolved triple, the empty string for an unresolved one. -/
def conditionText : Option (String × String × String) → String
  | some (a, c, v) => a ++ getCondition c ++ v
  | none => ""

/-- The three strings the wide-column path passes on for a triple: those of a
resolved triple, three empty strings for an unresolved one. -/
def passedTriple : Option (String × String × String) → String × String × String
  | some t => t
  | none => ("", "", "")

/-- The combinator of the ad-hoc filter. -/
inductive Combinator where
  | or_
  | and_
deriving DecidableEq, Repr

/-- The combinator a filter-parameter map asks for: OR exactly for
join = "or", AND exactly for join = "and", none otherwise. -/
def combinator (m : List (String × String)) : Option Combinator :=
  match map_find m "join" with
  | some join =>
    if join = "or" then some Combinator.or_
    else if join = "and" then some Combinator.and_
    else none
  | none => none

end Metadata

namespace oauth1_config

/-- The items the normalized parameter string is made of, as the
specification lists them: the query parameters, the five fixed OAuth items, the
token item if the access token is not empty, the extra item if the extra key is
not empty. -/
def expectedItems (strings : oauth1_strings) (config : oauth1_config)
    (queries_map : List (String × String)) (state : oauth1_state) : List String :=
  queryItems queries_map
    ++ [strings.version ++ "=1.0",
        strings.consumer_key ++ "=" ++ config.consumer_key,
        strings.signature_method ++ "=" ++ config.method,
        strings.timestamp ++ "=" ++ state.timestamp,
        strings.nonce ++ "=" ++ state.nonce]
    ++ (if config.access_token = "" then [] else [strings.token ++ "=" ++ config.access_token])
    ++ (if state.extra_key = "" then [] else [state.extra_key ++ "=" ++ state.extra_value])

/-- Modelled from the spec: the values of the constants of `oauth1_strings`
(`http_constants.dat` is not among the sources), under the names the
specification gives to the items. -/
def standardStrings : oauth1_strings :=
  { version := "oauth_version",
    consumer_key := "oauth_consumer_key",
    token := "oauth_token",
    signature_method := "oauth_signature_method",
    timestamp := "oauth_timestamp",
    nonce := "oauth_nonce" }

end oauth1_config

/-! ## Lemmas on the clauses -/

namespace Metadata

open json

theorem bind_ok_iff {ε α β : Type} (x : Except ε α) (f : α → Except ε β) (b : β) :
    (x >>= f) = Except.ok b ↔ ∃ a, x = Except.ok a ∧ f a = Except.ok b := by
  cases x with
  | error e => simp [bind, Except.bind]
  | ok a => simp [bind, Except.bind]

theorem buildClauses_ok_iff (query_obj : object) (q : MysqlQuery) :
    buildClauses query_obj = Except.ok q ↔
    ∃ c1 c2 c3 c4 c5 c6 c7 c8 c9 c10 c11 c12 c13 c14 c15,
      stringClause MysqlCall.selectDistinct (find query_obj "Distinct") = Except.ok c1 ∧
      selectClause (find query_obj "Select") = Except.ok c2 ∧
      fromClause (find query_obj "From") = Except.ok c3 ∧
      joinClause MysqlCall.join MysqlCall.join (find query_obj "Join") = Except.ok c4 ∧
      joinClause MysqlCall.leftJoin MysqlCall.join (find query_obj "LeftJoin") = Except.ok c5 ∧
      joinClause MysqlCall.join MysqlCall.join (find query_obj "RightJoin") = Except.ok c6 ∧
      tableClause MysqlCall.naturalJoin (find query_obj "NaturalJoin") = Except.ok c7 ∧
      tableClause MysqlCall.crossJoin (find query_obj "CrossJoin") = Except.ok c8 ∧
      stringClause MysqlCall.where_ (find query_obj "Where") = Except.ok c9 ∧
      extraWhereClause MysqlCall.andWhere (find query_obj "AndWhere") = Except.ok c10 ∧
      extraWhereClause MysqlCall.andWhere (find query_obj "OrWhere") = Except.ok c11 ∧
      stringClause MysqlCall.group (find query_obj "Group") = Except.ok c12 ∧
      stringClause MysqlCall.having (find query_obj "Having") = Except.ok c13 ∧
      stringClause MysqlCall.munion (find query_obj "Union") = Except.ok c14 ∧
      stringClause MysqlCall.order (find query_obj "Order") = Except.ok c15 ∧
      q = c1 ++ c2 ++ c3 ++ c4 ++ c5 ++ c6 ++ c7 ++ c8 ++ c9 ++ c10 ++ c11 ++ c12 ++ c13
        ++ c14 ++ c15 := by
  unfold buildClauses
  simp only [bind_ok_iff, pure, Except.pure, Except.ok.injEq]
  constructor
  · rintro ⟨c1, h1, c2, h2, c3, h3, c4, h4, c5, h5, c6, h6, c7, h7, c8, h8, c9, h9, c10, h10,
      c11, h11, c12, h12, c13, h13, c14, h14, c15, h15, hq⟩
    exact ⟨c1, c2, c3, c4, c5, c6, c7, c8, c9, c10, c11, c12, c13, c14, c15,
      h1, h2, h3, h4, h5, h6, h7, h8, h9, h10, h11, h12, h13, h14, h15, hq.symm⟩
  · rintro ⟨c1, c2, c3, c4, c5, c6, c7, c8, c9, c10, c11, c12, c13, c14, c15,
      h1, h2, h3, h4, h5, h6, h7, h8, h9, h10, h11, h12, h13, h14, h15, hq⟩
    exact ⟨c1, h1, c2, h2, c3, h3, c4, h4, c5, h5, c6, h6, c7, h7, c8, h8, c9, h9, c10, h10,
      c11, h11, c12, h12, c13, h13, c14, h14, c15, h15, hq.symm⟩

theorem bind_ok_eq {ε α β : Type} (a : α) (f : α → Except ε β) :
    ((Except.ok a : Except ε α) >>= f) = f a := rfl

theorem bind_error_eq {ε α β : Type} (e : ε) (f : α → Except ε β) :
    ((Except.error e : Except ε α) >>= f) = Except.error e := rfl

theorem stringClause_eq (f : String → MysqlCall) (iter : Option value) :
    stringClause f iter =
      if stringOrAbsent iter then
        Except.ok (match iter with
          | some (value.string s) => [f s]
          | _ => [])
      else Except.error Stop.json_exception := by
  cases iter with
  | none => rfl
  | some v => cases v <;> rfl

theorem selectClause_eq (iter : Option value) :
    selectClause iter =
      if stringOrAbsent iter then
        Except.ok (match iter with
          | some (value.string s) => [MysqlCall.select s]
          | _ => [MysqlCall.selectAll])
      else Except.error Stop.json_exception := by
  cases iter with
  | none => rfl
  | some v => cases v <;> rfl

theorem stringClause_ok_of_valid (f : String → MysqlCall) (iter : Option value)
    (h : stringOrAbsent iter = true) : ∃ c, stringClause f iter = Except.ok c := by
  rw [stringClause_eq, if_pos h]
  exact ⟨_, rfl⟩

theorem selectClause_ok_of_valid (iter : Option value)
    (h : stringOrAbsent iter = true) : ∃ c, selectClause iter = Except.ok c := by
  rw [selectClause_eq, if_pos h]
  exact ⟨_, rfl⟩

theorem fromClause_ok_of_valid (iter : Option value)
    (h : stringPresent iter = true) : ∃ c, fromClause iter = Except.ok c := by
  cases iter with
  | none => simp [stringPresent] at h
  | some v => cases v <;> first | exact ⟨_, rfl⟩ | simp [stringPresent] at h

theorem joinEntry_of_incomplete (f : String → String → MysqlCall) (e : value)
    (h : entryComplete e = false) : joinEntry f e = Except.error Stop.return_false := by
  unfold entryComplete at h
  unfold joinEntry
  rw [if_neg (by simp [h])]

theorem joinEntry_ok_of_valid (f : String → String → MysqlCall) (e : value)
    (h : entryValid e = true) : ∃ c, joinEntry f e = Except.ok c := by
  cases e with
  | object fields =>
    unfold entryValid value.«at» at h
    unfold joinEntry value.has_field value.«at»
    cases h1 : find fields "TableName" with
    | none => simp [h1] at h
    | some t =>
      cases h2 : find fields "Conditions" with
      | none => simp [h1, h2] at h
      | some c =>
        cases t <;> cases c <;> simp [h1, h2] at h
        simp [h1, h2, bind, Except.bind, value.as_string, pure, Except.pure]
  | _ => simp [entryValid, value.«at»] at h

theorem entryComplete_of_valid (e : value) (h : entryValid e = true) :
    entryComplete e = true := by
  cases e with
  | object fields =>
    unfold entryValid value.«at» at h
    unfold entryComplete value.has_field
    cases h1 : find fields "TableName" with
    | none => simp [h1] at h
    | some t =>
      cases h2 : find fields "Conditions" with
      | none => simp [h1, h2] at h
      | some c => simp [h1, h2]
  | _ => simp [entryValid, value.«at»] at h

theorem joinLoop_ok_of_valid (f : String → String → MysqlCall) (elements : List value)
    (h : elements.all entryValid = true) : ∃ c, joinLoop f elements = Except.ok c := by
  induction elements with
  | nil => exact ⟨[], rfl⟩
  | cons e rest ih =>
    simp only [List.all_cons, Bool.and_eq_true] at h
    obtain ⟨a, ha⟩ := joinEntry_ok_of_valid f e h.1
    obtain ⟨b, hb⟩ := ih h.2
    exact ⟨a ++ b, by simp [joinLoop, ha, hb, bind, Except.bind, pure, Except.pure]⟩

theorem joinLoop_not_ok_of_incomplete (f : String → String → MysqlCall)
    (elements : List value) (h : elements.any (fun e => !entryComplete e) = true)
    (c : MysqlQuery) : joinLoop f elements ≠ Except.ok c := by
  induction elements generalizing c with
  | nil => simp at h
  | cons e rest ih =>
    intro hc
    simp only [joinLoop, bind_ok_iff, pure, Except.pure] at hc
    obtain ⟨a, ha, b, hb, _⟩ := hc
    simp only [List.any_cons, Bool.or_eq_true, Bool.not_eq_true'] at h
    rcases h with h | h
    · rw [joinEntry_of_incomplete f e h] at ha
      cases ha
    · exact ih h b hb

theorem joinLoop_of_typed_incomplete (f : String → String → MysqlCall)
    (elements : List value)
    (ht : elements.all (fun e => !entryComplete e || entryValid e) = true)
    (h : elements.any (fun e => !entryComplete e) = true) :
    joinLoop f elements = Except.error Stop.return_false := by
  induction elements with
  | nil => simp at h
  | cons e rest ih =>
    simp only [List.all_cons, Bool.and_eq_true, Bool.or_eq_true, Bool.not_eq_true'] at ht
    simp only [List.any_cons, Bool.or_eq_true, Bool.not_eq_true'] at h
    cases hc : entryComplete e with
    | false => simp [joinLoop, joinEntry_of_incomplete f e hc, bind, Except.bind]
    | true =>
      have hv : entryValid e = true := by
        rcases ht.1 with h1 | h1
        · rw [hc] at h1
          cases h1
        · exact h1
      obtain ⟨a, ha⟩ := joinEntry_ok_of_valid f e hv
      have hrest : rest.any (fun e => !entryComplete e) = true := by
        rcases h with h1 | h1
        · rw [hc] at h1
          cases h1
        · exact h1
      have hall : rest.all (fun e => !entryComplete e || entryValid e) = true := by
        simpa using ht.2
      simp [joinLoop, ha, ih hall hrest, bind, Except.bind]

theorem joinClause_ok_of_valid (single looped : String → String → MysqlCall)
    (iter : Option value) (h : joinValid iter = true) :
    ∃ c, joinClause single looped iter = Except.ok c := by
  cases iter with
  | none => exact ⟨[], rfl⟩
  | some v =>
    cases v with
    | object fields => exact joinEntry_ok_of_valid single _ h
    | array elements => exact joinLoop_ok_of_valid looped elements h
    | _ => simp [joinValid] at h

theorem joinClause_not_ok_of_rejected (single looped : String → String → MysqlCall)
    (iter : Option value) (h : joinRejected iter = true) (c : MysqlQuery) :
    joinClause single looped iter ≠ Except.ok c := by
  cases iter with
  | none => simp [joinRejected] at h
  | some v =>
    cases v with
    | object fields =>
      simp only [joinRejected, Bool.not_eq_true'] at h
      simp [joinClause, joinEntry_of_incomplete single _ h]
    | array elements => exact joinLoop_not_ok_of_incomplete looped elements h c
    | _ => simp [joinClause]

theorem joinClause_of_typed_rejected (single looped : String → String → MysqlCall)
    (iter : Option value) (ht : joinTyped iter = true) (h : joinRejected iter = true) :
    joinClause single looped iter = Except.error Stop.return_false := by
  cases iter with
  | none => simp [joinRejected] at h
  | some v =>
    cases v with
    | object fields =>
      simp only [joinRejected, Bool.not_eq_true'] at h
      simp [joinClause, joinEntry_of_incomplete single _ h]
    | array elements => exact joinLoop_of_typed_incomplete looped elements ht h
    | _ => simp [joinClause]

theorem joinClause_ok_of_typed_accepted (single looped : String → String → MysqlCall)
    (iter : Option value) (ht : joinTyped iter = true) (h : joinRejected iter = false) :
    ∃ c, joinClause single looped iter = Except.ok c := by
  apply joinClause_ok_of_valid
  cases iter with
  | none => rfl
  | some v =>
    cases v with
    | object fields =>
      simp only [joinRejected, Bool.not_eq_false'] at h
      simpa [joinTyped, joinValid, h] using ht
    | array elements =>
      simp only [joinRejected, joinTyped, joinValid] at *
      rw [List.all_eq_true] at ht ⊢
      intro e he
      have h1 := ht e he
      have h2 : entryComplete e = true := by
        by_contra hn
        have : elements.any (fun e => !entryComplete e) = true := by
          rw [List.any_eq_true]
          exact ⟨e, he, by simpa using hn⟩
        rw [h] at this
        cases this
      simpa [h2] using h1
    | _ => simp [joinRejected] at h

theorem stringLoop_ok_of_valid (f : String → MysqlCall) (elements : List value)
    (h : elements.all value.is_string = true) : ∃ c, stringLoop f elements = Except.ok c := by
  induction elements with
  | nil => exact ⟨[], rfl⟩
  | cons e rest ih =>
    simp only [List.all_cons, Bool.and_eq_true] at h
    obtain ⟨b, hb⟩ := ih h.2
    cases e <;> simp [value.is_string] at h
    simp [stringLoop, hb, value.as_string, bind, Except.bind, pure, Except.pure]

theorem tableClause_ok_of_valid (f : String → MysqlCall) (iter : Option value)
    (h : tablesValid iter = true) : ∃ c, tableClause f iter = Except.ok c := by
  cases iter with
  | none => exact ⟨[], rfl⟩
  | some v =>
    cases v with
    | array elements => exact stringLoop_ok_of_valid f elements h
    | _ => simp [tablesValid] at h

theorem extraWhereClause_ok_of_valid (f : String → MysqlCall) (iter : Option value)
    (h : extraWhereValid iter = true) : ∃ c, extraWhereClause f iter = Except.ok c := by
  cases iter with
  | none => exact ⟨[], rfl⟩
  | some v =>
    cases v with
    | array elements => exact stringLoop_ok_of_valid f elements h
    | string s => exact ⟨_, rfl⟩
    | _ => simp [extraWhereValid] at h

/-- A document that is valid in its clauses passes all of them. -/
theorem buildClauses_ok_of_valid (query_obj : object) (h : validClauses query_obj = true) :
    ∃ c, buildClauses query_obj = Except.ok c := by
  simp only [validClauses, Bool.and_eq_true] at h
  obtain ⟨⟨⟨⟨⟨⟨⟨⟨⟨⟨⟨⟨⟨⟨h1, h2⟩, h3⟩, h4⟩, h5⟩, h6⟩, h7⟩, h8⟩, h9⟩, h10⟩, h11⟩, h12⟩, h13⟩, h14⟩, h15⟩ := h
  obtain ⟨c1, e1⟩ := stringClause_ok_of_valid MysqlCall.selectDistinct _ h1
  obtain ⟨c2, e2⟩ := selectClause_ok_of_valid _ h2
  obtain ⟨c3, e3⟩ := fromClause_ok_of_valid _ h3
  obtain ⟨c4, e4⟩ := joinClause_ok_of_valid MysqlCall.join MysqlCall.join _ h4
  obtain ⟨c5, e5⟩ := joinClause_ok_of_valid MysqlCall.leftJoin MysqlCall.join _ h5
  obtain ⟨c6, e6⟩ := joinClause_ok_of_valid MysqlCall.join MysqlCall.join _ h6
  obtain ⟨c7, e7⟩ := tableClause_ok_of_valid MysqlCall.naturalJoin _ h7
  obtain ⟨c8, e8⟩ := tableClause_ok_of_valid MysqlCall.crossJoin _ h8
  obtain ⟨c9, e9⟩ := stringClause_ok_of_valid MysqlCall.where_ _ h9
  obtain ⟨c10, e10⟩ := extraWhereClause_ok_of_valid MysqlCall.andWhere _ h10
  obtain ⟨c11, e11⟩ := extraWhereClause_ok_of_valid MysqlCall.andWhere _ h11
  obtain ⟨c12, e12⟩ := stringClause_ok_of_valid MysqlCall.group _ h12
  obtain ⟨c13, e13⟩ := stringClause_ok_of_valid MysqlCall.having _ h13
  obtain ⟨c14, e14⟩ := stringClause_ok_of_valid MysqlCall.munion _ h14
  obtain ⟨c15, e15⟩ := stringClause_ok_of_valid MysqlCall.order _ h15
  exact ⟨_, (buildClauses_ok_iff query_obj _).2
    ⟨c1, c2, c3, c4, c5, c6, c7, c8, c9, c10, c11, c12, c13, c14, c15,
      e1, e2, e3, e4, e5, e6, e7, e8, e9, e10, e11, e12, e13, e14, e15, rfl⟩⟩

end Metadata

/-! ## The calls each clause can make -/

namespace Metadata

open json

theorem stringClause_mem (f : String → MysqlCall) (iter : Option value) (c : MysqlQuery)
    (h : stringClause f iter = Except.ok c) : ∀ x ∈ c, ∃ s, x = f s := by
  rw [stringClause_eq] at h
  split at h
  · cases h
    intro x hx
    split at hx
    · exact ⟨_, by simpa using hx⟩
    · simp at hx
  · cases h

theorem selectClause_mem (iter : Option value) (c : MysqlQuery)
    (h : selectClause iter = Except.ok c) :
    ∀ x ∈ c, x = MysqlCall.selectAll ∨ ∃ s, x = MysqlCall.select s := by
  rw [selectClause_eq] at h
  split at h
  · cases h
    intro x hx
    split at hx
    · exact Or.inr ⟨_, by simpa using hx⟩
    · exact Or.inl (by simpa using hx)
  · cases h

theorem fromClause_mem (iter : Option value) (c : MysqlQuery)
    (h : fromClause iter = Except.ok c) : ∀ x ∈ c, ∃ t, x = MysqlCall.from_ t := by
  cases iter with
  | none => cases h
  | some v =>
    cases v with
    | string s =>
      cases h
      intro x hx
      exact ⟨s, by simpa using hx⟩
    | _ => cases h

theorem joinEntry_mem (f : String → String → MysqlCall) (e : value) (c : MysqlQuery)
    (h : joinEntry f e = Except.ok c) : ∀ x ∈ c, ∃ t k, x = f t k := by
  unfold joinEntry at h
  split at h
  · simp only [bind_ok_iff, pure, Except.pure, Except.ok.injEq] at h
    obtain ⟨_, _, _, _, t, _, k, _, hc⟩ := h
    intro x hx
    exact ⟨t, k, by simpa [← hc] using hx⟩
  · cases h

theorem joinLoop_mem (f : String → String → MysqlCall) (elements : List value)
    (c : MysqlQuery) (h : joinLoop f elements = Except.ok c) :
    ∀ x ∈ c, ∃ t k, x = f t k := by
  induction elements generalizing c with
  | nil =>
    cases h
    intro x hx
    simp at hx
  | cons e rest ih =>
    simp only [joinLoop, bind_ok_iff, pure, Except.pure, Except.ok.injEq] at h
    obtain ⟨a, ha, b, hb, hc⟩ := h
    intro x hx
    rw [← hc, List.mem_append] at hx
    rcases hx with hx | hx
    · exact joinEntry_mem f e a ha x hx
    · exact ih b hb x hx

theorem joinClause_mem (single looped : String → String → MysqlCall) (iter : Option value)
    (c : MysqlQuery) (h : joinClause single looped iter = Except.ok c) :
    ∀ x ∈ c, ∃ t k, x = single t k ∨ x = looped t k := by
  intro x hx
  cases iter with
  | none =>
    cases h
    simp at hx
  | some v =>
    cases v with
    | object fields =>
      obtain ⟨t, k, hk⟩ := joinEntry_mem single _ c h x hx
      exact ⟨t, k, Or.inl hk⟩
    | array elements =>
      obtain ⟨t, k, hk⟩ := joinLoop_mem looped elements c h x hx
      exact ⟨t, k, Or.inr hk⟩
    | _ => cases h

theorem stringLoop_mem (f : String → MysqlCall) (elements : List value) (c : MysqlQuery)
    (h : stringLoop f elements = Except.ok c) : ∀ x ∈ c, ∃ s, x = f s := by
  induction elements generalizing c with
  | nil =>
    cases h
    intro x hx
    simp at hx
  | cons e rest ih =>
    simp only [stringLoop, bind_ok_iff, pure, Except.pure, Except.ok.injEq] at h
    obtain ⟨s, _, b, hb, hc⟩ := h
    intro x hx
    rw [← hc, List.mem_cons] at hx
    rcases hx with hx | hx
    · exact ⟨s, hx⟩
    · exact ih b hb x hx

theorem tableClause_mem (f : String → MysqlCall) (iter : Option value) (c : MysqlQuery)
    (h : tableClause f iter = Except.ok c) : ∀ x ∈ c, ∃ s, x = f s := by
  cases iter with
  | none =>
    cases h
    intro x hx
    simp at hx
  | some v =>
    cases v with
    | array elements => exact stringLoop_mem f elements c h
    | _ => cases h

theorem extraWhereClause_mem (f : String → MysqlCall) (iter : Option value) (c : MysqlQuery)
    (h : extraWhereClause f iter = Except.ok c) : ∀ x ∈ c, ∃ s, x = f s := by
  cases iter with
  | none =>
    cases h
    intro x hx
    simp at hx
  | some v =>
    cases v with
    | array elements => exact stringLoop_mem f elements c h
    | string s =>
      cases h
      intro x hx
      exact ⟨s, by simpa using hx⟩
    | _ => cases h

theorem filter_nil_of_forall (p : MysqlCall → Bool) (c : MysqlQuery)
    (h : ∀ x ∈ c, p x = false) : c.filter p = [] := by
  rw [List.filter_eq_nil_iff]
  intro x hx
  simp [h x hx]

theorem filter_self_of_forall (p : MysqlCall → Bool) (c : MysqlQuery)
    (h : ∀ x ∈ c, p x = true) : c.filter p = c := by
  rw [List.filter_eq_self]
  exact h

end Metadata

/-! ## Lemmas on the query as a whole -/

namespace Metadata

open json

theorem buildClauses_not_limit (query_obj : object) (c : MysqlQuery)
    (h : buildClauses query_obj = Except.ok c) : ∀ x ∈ c, isLimitCall x = false := by
  obtain ⟨c1, c2, c3, c4, c5, c6, c7, c8, c9, c10, c11, c12, c13, c14, c15,
    h1, h2, h3, h4, h5, h6, h7, h8, h9, h10, h11, h12, h13, h14, h15, hq⟩ :=
    (buildClauses_ok_iff query_obj c).1 h
  intro x hx
  rw [hq] at hx
  simp only [List.mem_append] at hx
  rcases hx with ((((((((((((((hx | hx) | hx) | hx) | hx) | hx) | hx) | hx) | hx) | hx) | hx)
    | hx) | hx) | hx) | hx)
  · obtain ⟨s, rfl⟩ := stringClause_mem _ _ _ h1 x hx; rfl
  · rcases selectClause_mem _ _ h2 x hx with rfl | ⟨s, rfl⟩ <;> rfl
  · obtain ⟨s, rfl⟩ := fromClause_mem _ _ h3 x hx; rfl
  · obtain ⟨t, k, rfl | rfl⟩ := joinClause_mem _ _ _ _ h4 x hx <;> rfl
  · obtain ⟨t, k, rfl | rfl⟩ := joinClause_mem _ _ _ _ h5 x hx <;> rfl
  · obtain ⟨t, k, rfl | rfl⟩ := joinClause_mem _ _ _ _ h6 x hx <;> rfl
  · obtain ⟨s, rfl⟩ := tableClause_mem _ _ _ h7 x hx; rfl
  · obtain ⟨s, rfl⟩ := tableClause_mem _ _ _ h8 x hx; rfl
  · obtain ⟨s, rfl⟩ := stringClause_mem _ _ _ h9 x hx; rfl
  · obtain ⟨s, rfl⟩ := extraWhereClause_mem _ _ _ h10 x hx; rfl
  · obtain ⟨s, rfl⟩ := extraWhereClause_mem _ _ _ h11 x hx; rfl
  · obtain ⟨s, rfl⟩ := stringClause_mem _ _ _ h12 x hx; rfl
  · obtain ⟨s, rfl⟩ := stringClause_mem _ _ _ h13 x hx; rfl
  · obtain ⟨s, rfl⟩ := stringClause_mem _ _ _ h14 x hx; rfl
  · obtain ⟨s, rfl⟩ := stringClause_mem _ _ _ h15 x hx; rfl

theorem as_integer_of_range (n : Int) (h1 : -2147483648 ≤ n) (h2 : n ≤ 2147483647) :
    (as_integer n).val = n := by
  simp only [as_integer]
  omega

theorem to_wstring_of_range (n : Int) (h1 : -2147483648 ≤ n) (h2 : n ≤ 2147483647) :
    to_wstring (as_integer n) = decimal n := by
  unfold to_wstring decimal
  rw [as_integer_of_range n h1 h2]

theorem limitText_of_fitsInt (v : value) (h : fitsInt v = true) :
    limitText v = decimalText v := by
  cases v with
  | integer n =>
    simp only [fitsInt, Bool.and_eq_true, decide_eq_true_eq] at h
    simp only [limitText, decimalText, to_wstring_of_range n h.1 h.2]
  | _ => rfl

theorem limitString_eq (v : value) :
    limitString v = (match limitText v with
      | some s => Except.ok s
      | none => Except.error Stop.return_false) := by
  cases v <;> rfl

theorem limitText_none_of_kind (v : value) (h1 : v.is_string = false)
    (h2 : v.is_integer = false) : limitText v = none := by
  cases v <;> simp [value.is_string, value.is_integer] at h1 h2 <;> rfl

theorem limitClause_both (lim off : value) :
    limitClause (some lim) (some off) = (match limitText lim, limitText off with
      | some l, some o => Except.ok [MysqlCall.limitOffset o l]
      | _, _ => Except.error Stop.return_false) := by
  unfold limitClause
  simp only [limitString_eq]
  cases limitText lim <;> cases limitText off <;> rfl

theorem limitClause_alone_of_kind (lim : value) (h1 : lim.is_string = false)
    (h2 : lim.is_integer = false) :
    limitClause (some lim) none = Except.error Stop.return_false := by
  cases lim <;> simp [value.is_string, value.is_integer] at h1 h2 <;> rfl

theorem limitClause_absent (iter_offset : Option value) :
    limitClause none iter_offset = Except.ok [] := by
  cases iter_offset <;> rfl

theorem buildQuery_of_clauses (query_obj : object) (c : MysqlQuery)
    (h : buildClauses query_obj = Except.ok c) :
    buildQuery query_obj
      = (match limitClause (find query_obj "Limit") (find query_obj "Offset") with
        | Except.ok l => Except.ok (c ++ l)
        | Except.error e => Except.error e) := by
  unfold buildQuery
  rw [h]
  cases limitClause (find query_obj "Limit") (find query_obj "Offset") <;> rfl

theorem limitClause_mem (iter_limit iter_offset : Option value) (c : MysqlQuery)
    (h : limitClause iter_limit iter_offset = Except.ok c) :
    ∀ x ∈ c, isLimitCall x = true := by
  intro x hx
  cases iter_limit with
  | none =>
    rw [limitClause_absent] at h
    cases h
    simp at hx
  | some lim =>
    cases iter_offset with
    | some off =>
      rw [limitClause_both] at h
      cases h1 : limitText lim <;> cases h2 : limitText off <;> simp [h1, h2] at h
      rw [← h] at hx
      simp at hx
      rw [hx]
      rfl
    | none =>
      cases lim <;> simp [limitClause, pure, Except.pure] at h <;> subst h <;> simp at hx
      rw [hx]
      rfl

theorem buildQuery_ok_iff (query_obj : object) (q : MysqlQuery) :
    buildQuery query_obj = Except.ok q ↔
      ∃ c l, buildClauses query_obj = Except.ok c
        ∧ limitClause (find query_obj "Limit") (find query_obj "Offset") = Except.ok l
        ∧ q = c ++ l := by
  simp only [buildQuery, bind_ok_iff, pure, Except.pure, Except.ok.injEq]
  constructor
  · rintro ⟨c, hc, l, hl, hq⟩
    exact ⟨c, l, hc, hl, hq.symm⟩
  · rintro ⟨c, l, hc, hl, hq⟩
    exact ⟨c, hc, l, hl, hq.symm⟩

theorem buildQuery_selects (query_obj : object) (q : MysqlQuery)
    (h : buildQuery query_obj = Except.ok q) :
    ∃ c1 c2, stringClause MysqlCall.selectDistinct (find query_obj "Distinct") = Except.ok c1
      ∧ selectClause (find query_obj "Select") = Except.ok c2
      ∧ q.filter isSelectCall = c1 ++ c2 := by
  obtain ⟨c, l, hc, hl, hq⟩ := (buildQuery_ok_iff query_obj q).1 h
  obtain ⟨c1, c2, c3, c4, c5, c6, c7, c8, c9, c10, c11, c12, c13, c14, c15,
    h1, h2, h3, h4, h5, h6, h7, h8, h9, h10, h11, h12, h13, h14, h15, hcq⟩ :=
    (buildClauses_ok_iff query_obj c).1 hc
  refine ⟨c1, c2, h1, h2, ?_⟩
  have e1 : c1.filter isSelectCall = c1 := filter_self_of_forall _ _ (fun x hx => by
    obtain ⟨s, rfl⟩ := stringClause_mem _ _ _ h1 x hx; rfl)
  have e2 : c2.filter isSelectCall = c2 := filter_self_of_forall _ _ (fun x hx => by
    rcases selectClause_mem _ _ h2 x hx with rfl | ⟨s, rfl⟩ <;> rfl)
  have e3 : c3.filter isSelectCall = [] := filter_nil_of_forall _ _ (fun x hx => by
    obtain ⟨s, rfl⟩ := fromClause_mem _ _ h3 x hx; rfl)
  have e4 : c4.filter isSelectCall = [] := filter_nil_of_forall _ _ (fun x hx => by
    obtain ⟨t, k, rfl | rfl⟩ := joinClause_mem _ _ _ _ h4 x hx <;> rfl)
  have e5 : c5.filter isSelectCall = [] := filter_nil_of_forall _ _ (fun x hx => by
    obtain ⟨t, k, rfl | rfl⟩ := joinClause_mem _ _ _ _ h5 x hx <;> rfl)
  have e6 : c6.filter isSelectCall = [] := filter_nil_of_forall _ _ (fun x hx => by
    obtain ⟨t, k, rfl | rfl⟩ := joinClause_mem _ _ _ _ h6 x hx <;> rfl)
  have e7 : c7.filter isSelectCall = [] := filter_nil_of_forall _ _ (fun x hx => by
    obtain ⟨s, rfl⟩ := tableClause_mem _ _ _ h7 x hx; rfl)
  have e8 : c8.filter isSelectCall = [] := filter_nil_of_forall _ _ (fun x hx => by
    obtain ⟨s, rfl⟩ := tableClause_mem _ _ _ h8 x hx; rfl)
  have e9 : c9.filter isSelectCall = [] := filter_nil_of_forall _ _ (fun x hx => by
    obtain ⟨s, rfl⟩ := stringClause_mem _ _ _ h9 x hx; rfl)
  have e10 : c10.filter isSelectCall = [] := filter_nil_of_forall _ _ (fun x hx => by
    obtain ⟨s, rfl⟩ := extraWhereClause_mem _ _ _ h10 x hx; rfl)
  have e11 : c11.filter isSelectCall = [] := filter_nil_of_forall _ _ (fun x hx => by
    obtain ⟨s, rfl⟩ := extraWhereClause_mem _ _ _ h11 x hx; rfl)
  have e12 : c12.filter isSelectCall = [] := filter_nil_of_forall _ _ (fun x hx => by
    obtain ⟨s, rfl⟩ := stringClause_mem _ _ _ h12 x hx; rfl)
  have e13 : c13.filter isSelectCall = [] := filter_nil_of_forall _ _ (fun x hx => by
    obtain ⟨s, rfl⟩ := stringClause_mem _ _ _ h13 x hx; rfl)
  have e14 : c14.filter isSelectCall = [] := filter_nil_of_forall _ _ (fun x hx => by
    obtain ⟨s, rfl⟩ := stringClause_mem _ _ _ h14 x hx; rfl)
  have e15 : c15.filter isSelectCall = [] := filter_nil_of_forall _ _ (fun x hx => by
    obtain ⟨s, rfl⟩ := stringClause_mem _ _ _ h15 x hx; rfl)
  have el : l.filter isSelectCall = [] := filter_nil_of_forall _ _ (fun x hx => by
    have hx1 := limitClause_mem _ _ l hl x hx
    cases x <;> first | rfl | cases hx1)
  rw [hq, hcq]
  simp only [List.filter_append, e1, e2, e3, e4, e5, e6, e7, e8, e9, e10, e11, e12, e13,
    e14, e15, el, List.append_nil]

end Metadata

/-! ## Theorems on `Metadata::getMysqlQueryResults` -/

namespace Metadata

open json

theorem getMysqlQueryResults_of_stop (queryAll : MysqlQuery → List table_entity)
    (query_obj : object) (result : value) (e : Stop) (h : buildQuery query_obj = Except.error e) :
    (getMysqlQueryResults queryAll query_obj result).returned
        = (if e = Stop.return_false then some false else none)
      ∧ (getMysqlQueryResults queryAll query_obj result).result = result
      ∧ (getMysqlQueryResults queryAll query_obj result).executed = [] := by
  unfold getMysqlQueryResults
  rw [h]
  cases e <;> simp

theorem getMysqlQueryResults_of_ok (queryAll : MysqlQuery → List table_entity)
    (query_obj : object) (result : value) (q : MysqlQuery) (h : buildQuery query_obj = Except.ok q) :
    (getMysqlQueryResults queryAll query_obj result).returned = some true
      ∧ (getMysqlQueryResults queryAll query_obj result).result
          = generateAzureEntityMeta (queryAll q)
      ∧ (getMysqlQueryResults queryAll query_obj result).executed = [q] := by
  unfold getMysqlQueryResults
  rw [h]
  simp

theorem buildQuery_missing_from (query_obj : object) (h : find query_obj "From" = none) :
    buildQuery query_obj =
      Except.error (if (stringOrAbsent (find query_obj "Distinct")
          && stringOrAbsent (find query_obj "Select")) = true
        then Stop.return_false else Stop.json_exception) := by
  unfold buildQuery buildClauses
  rw [stringClause_eq, selectClause_eq, h]
  cases stringOrAbsent (find query_obj "Distinct") <;>
    cases stringOrAbsent (find query_obj "Select") <;>
    simp [fromClause, bind, Except.bind]

/-- C1, as amended.  For every document without `From`: the function returns
false when `Distinct` and `Select` are each absent or a string, and otherwise a
`json_exception` leaves it; in both cases `result` is untouched and no query is
run. -/
theorem c1_missing_from (queryAll : MysqlQuery → List table_entity)
    (query_obj : object) (result : value) (h : find query_obj "From" = none) :
    (getMysqlQueryResults queryAll query_obj result).returned
        = (if (stringOrAbsent (find query_obj "Distinct")
              && stringOrAbsent (find query_obj "Select")) = true
            then some false else none)
      ∧ (getMysqlQueryResults queryAll query_obj result).result = result
      ∧ (getMysqlQueryResults queryAll query_obj result).executed = [] := by
  have hb := buildQuery_missing_from query_obj h
  obtain ⟨h1, h2, h3⟩ := getMysqlQueryResults_of_stop queryAll query_obj result _ hb
  refine ⟨?_, h2, h3⟩
  rw [h1]
  cases stringOrAbsent (find query_obj "Distinct") <;>
    cases stringOrAbsent (find query_obj "Select") <;> simp

/-- C1, witness: the document {"Select":"a"} has no `From` and is answered with
false. -/
theorem c1_missing_from_witness :
    find [("Select", value.string "a")] "From" = none
      ∧ (getMysqlQueryResults (fun _ => []) [("Select", value.string "a")] value.null).returned
          = some false :=
  ⟨rfl, (c1_missing_from (fun _ => []) [("Select", value.string "a")] value.null rfl).1⟩

/-- C1, counterexample: the document {"Select":5} has no `From`, and the function
does not return false on it (reading `Select` raises `json_exception` before
`From` is looked at). -/
theorem c1_counterexample :
    find [("Select", value.integer 5)] "From" = none
      ∧ (getMysqlQueryResults (fun _ => []) [("Select", value.integer 5)] value.null).returned
          ≠ some false :=
  ⟨rfl, by decide⟩

theorem buildQuery_not_ok_of_rejected (query_obj : object)
    (hbad : joinRejected (find query_obj "Join") = true
      ∨ joinRejected (find query_obj "LeftJoin") = true
      ∨ joinRejected (find query_obj "RightJoin") = true) (q : MysqlQuery) :
    buildQuery query_obj ≠ Except.ok q := by
  intro hq
  simp only [buildQuery, bind_ok_iff] at hq
  obtain ⟨c, hc, _⟩ := hq
  obtain ⟨c1, c2, c3, c4, c5, c6, c7, c8, c9, c10, c11, c12, c13, c14, c15,
    _, _, _, h4, h5, h6, _⟩ := (buildClauses_ok_iff query_obj c).1 hc
  rcases hbad with h | h | h
  · exact joinClause_not_ok_of_rejected _ _ _ h c4 h4
  · exact joinClause_not_ok_of_rejected _ _ _ h c5 h5
  · exact joinClause_not_ok_of_rejected _ _ _ h c6 h6

theorem buildQuery_of_typed_rejected (query_obj : object) (t : String)
    (hfrom : find query_obj "From" = some (value.string t))
    (hd : stringOrAbsent (find query_obj "Distinct") = true)
    (hs : stringOrAbsent (find query_obj "Select") = true)
    (hj : joinTyped (find query_obj "Join") = true)
    (hl : joinTyped (find query_obj "LeftJoin") = true)
    (hr : joinTyped (find query_obj "RightJoin") = true)
    (hbad : joinRejected (find query_obj "Join") = true
      ∨ joinRejected (find query_obj "LeftJoin") = true
      ∨ joinRejected (find query_obj "RightJoin") = true) :
    buildQuery query_obj = Except.error Stop.return_false := by
  unfold buildQuery buildClauses
  rw [stringClause_eq, selectClause_eq, if_pos hd, if_pos hs, hfrom]
  simp only [fromClause, value.as_string, bind_ok_eq, pure, Except.pure]
  cases h4 : joinRejected (find query_obj "Join") with
  | true => rw [joinClause_of_typed_rejected _ _ _ hj h4]; rfl
  | false =>
    obtain ⟨c4, e4⟩ := joinClause_ok_of_typed_accepted MysqlCall.join MysqlCall.join _ hj h4
    rw [e4, bind_ok_eq]
    cases h5 : joinRejected (find query_obj "LeftJoin") with
    | true => rw [joinClause_of_typed_rejected _ _ _ hl h5]; rfl
    | false =>
      obtain ⟨c5, e5⟩ :=
        joinClause_ok_of_typed_accepted MysqlCall.leftJoin MysqlCall.join _ hl h5
      rw [e5, bind_ok_eq]
      have h6 : joinRejected (find query_obj "RightJoin") = true := by
        rcases hbad with h | h | h
        · rw [h4] at h; cases h
        · rw [h5] at h; cases h
        · exact h
      rw [joinClause_of_typed_rejected _ _ _ hr h6]
      rfl

/-- C2, as amended.  For every document with a string `From` in which `Join`,
`LeftJoin` or `RightJoin` holds an entry without `TableName` or without
`Conditions` (as the single object or anywhere in the array), or holds a value
that is neither object nor array: the function never succeeds, leaves `result`
untouched and runs no query; and it returns false whenever `Distinct` and
`Select` are each absent or a string and every join entry that has both fields
holds strings in them. -/
theorem c2_incomplete_join (queryAll : MysqlQuery → List table_entity)
    (query_obj : object) (result : value) (t : String)
    (hfrom : find query_obj "From" = some (value.string t))
    (hbad : joinRejected (find query_obj "Join") = true
      ∨ joinRejected (find query_obj "LeftJoin") = true
      ∨ joinRejected (find query_obj "RightJoin") = true) :
    (getMysqlQueryResults queryAll query_obj result).returned ≠ some true
      ∧ (getMysqlQueryResults queryAll query_obj result).result = result
      ∧ (getMysqlQueryResults queryAll query_obj result).executed = []
      ∧ (stringOrAbsent (find query_obj "Distinct") = true →
          stringOrAbsent (find query_obj "Select") = true →
          joinTyped (find query_obj "Join") = true →
          joinTyped (find query_obj "LeftJoin") = true →
          joinTyped (find query_obj "RightJoin") = true →
          (getMysqlQueryResults queryAll query_obj result).returned = some false) := by
  cases hb : buildQuery query_obj with
  | ok q => exact absurd hb (buildQuery_not_ok_of_rejected query_obj hbad q)
  | error e =>
    obtain ⟨h1, h2, h3⟩ := getMysqlQueryResults_of_stop queryAll query_obj result e hb
    refine ⟨?_, h2, h3, ?_⟩
    · rw [h1]
      cases e <;> simp
    · intro hd hs hj hl hr
      have hf := buildQuery_of_typed_rejected query_obj t hfrom hd hs hj hl hr hbad
      rw [hb] at hf
      cases hf
      rw [h1]
      simp

/-- C2, witness: in {"From":"t","LeftJoin":[{"TableName":"a","Conditions":"x"},
{"TableName":"b"}]} the last entry has no `Conditions`, and the function returns
false. -/
theorem c2_incomplete_join_witness :
    find [("From", value.string "t"),
        ("LeftJoin", value.array [
          value.object [("TableName", value.string "a"), ("Conditions", value.string "x")],
          value.object [("TableName", value.string "b")]])] "From" = some (value.string "t")
      ∧ (getMysqlQueryResults (fun _ => []) [("From", value.string "t"),
        ("LeftJoin", value.array [
          value.object [("TableName", value.string "a"), ("Conditions", value.string "x")],
          value.object [("TableName", value.string "b")]])] value.null).returned = some false :=
  ⟨rfl, (c2_incomplete_join (fun _ => []) [("From", value.string "t"),
        ("LeftJoin", value.array [
          value.object [("TableName", value.string "a"), ("Conditions", value.string "x")],
          value.object [("TableName", value.string "b")]])] value.null "t" rfl
      (Or.inr (Or.inl rfl))).2.2.2 rfl rfl rfl rfl rfl⟩

/-- C2, counterexample: in {"From":"t","Join":[{"TableName":5,"Conditions":"c"},
{}]} the last entry of the array lacks both fields, yet the function does not
return false: the first entry is read first and its `TableName` raises
`json_exception`. -/
theorem c2_counterexample :
    find [("From", value.string "t"),
        ("Join", value.array [
          value.object [("TableName", value.integer 5), ("Conditions", value.string "c")],
          value.object []])] "From" = some (value.string "t")
      ∧ joinRejected (find [("From", value.string "t"),
        ("Join", value.array [
          value.object [("TableName", value.integer 5), ("Conditions", value.string "c")],
          value.object []])] "Join") = true
      ∧ (getMysqlQueryResults (fun _ => []) [("From", value.string "t"),
        ("Join", value.array [
          value.object [("TableName", value.integer 5), ("Conditions", value.string "c")],
          value.object []])] value.null).returned ≠ some false :=
  ⟨rfl, rfl, by decide⟩

/-- C3, the code at a failing input.  For {"From":"t",
"LeftJoin":[{"TableName":"a","Conditions":"x"}],
"RightJoin":{"TableName":"b","Conditions":"y"}} the function succeeds and the
query it runs holds two inner joins: neither `leftJoin` nor `rightJoin` was
called for these entries. -/
theorem c3_left_right_join_built_inner :
    (getMysqlQueryResults (fun _ => []) [("From", value.string "t"),
        ("LeftJoin", value.array [
          value.object [("TableName", value.string "a"), ("Conditions", value.string "x")]]),
        ("RightJoin",
          value.object [("TableName", value.string "b"), ("Conditions", value.string "y")])]
        value.null).returned = some true
      ∧ (getMysqlQueryResults (fun _ => []) [("From", value.string "t"),
        ("LeftJoin", value.array [
          value.object [("TableName", value.string "a"), ("Conditions", value.string "x")]]),
        ("RightJoin",
          value.object [("TableName", value.string "b"), ("Conditions", value.string "y")])]
        value.null).executed
        = [[MysqlCall.selectAll, MysqlCall.from_ "t", MysqlCall.join "a" "x",
            MysqlCall.join "b" "y"]] :=
  ⟨rfl, rfl⟩

/-- C4, the code at a failing input.  For {"From":"t","OrWhere":"x=1"} the
function succeeds and the query it runs received the string through `andWhere`;
`orWhere` was not called. -/
theorem c4_or_where_built_and :
    (getMysqlQueryResults (fun _ => []) [("From", value.string "t"),
        ("OrWhere", value.string "x=1")] value.null).returned = some true
      ∧ (getMysqlQueryResults (fun _ => []) [("From", value.string "t"),
        ("OrWhere", value.string "x=1")] value.null).executed
        = [[MysqlCall.selectAll, MysqlCall.from_ "t", MysqlCall.andWhere "x=1"]] :=
  ⟨rfl, rfl⟩

/-- C5, the code at a failing input.  For {"From":"t","Limit":"5"} the function
succeeds and the query it runs has no limit call at all, whereas for
{"From":"t","Limit":5} it has `limit("5")`. -/
theorem c5_string_limit_dropped :
    (getMysqlQueryResults (fun _ => []) [("From", value.string "t"),
        ("Limit", value.string "5")] value.null).returned = some true
      ∧ (getMysqlQueryResults (fun _ => []) [("From", value.string "t"),
        ("Limit", value.string "5")] value.null).executed
        = [[MysqlCall.selectAll, MysqlCall.from_ "t"]]
      ∧ (getMysqlQueryResults (fun _ => []) [("From", value.string "t"),
        ("Limit", value.integer 5)] value.null).executed
        = [[MysqlCall.selectAll, MysqlCall.from_ "t", MysqlCall.limit "5"]] :=
  ⟨rfl, rfl, rfl⟩

/-- C6, as amended.  For every document in which `Select` is the string s,
`From` the string t, `Limit` the integer n, and no other field is present, the
function succeeds and the one query it runs is exactly `select(s)`, `from(t)`,
`limit(text)`, where the text is the decimal rendering of the `int` that
`as_integer()` reads from n: no distinct, join, where, group, having, union or
order call and no offset.  When n lies within the range of `int` the text is n
in decimal. -/
theorem c6_select_from_limit (queryAll : MysqlQuery → List table_entity)
    (query_obj : object) (result : value) (s t : String) (n : Int)
    (hs : find query_obj "Select" = some (value.string s))
    (hf : find query_obj "From" = some (value.string t))
    (hl : find query_obj "Limit" = some (value.integer n))
    (hother : ∀ key, key ≠ "Select" → key ≠ "From" → key ≠ "Limit" →
      find query_obj key = none) :
    (getMysqlQueryResults queryAll query_obj result).returned = some true
      ∧ (getMysqlQueryResults queryAll query_obj result).executed
        = [[MysqlCall.select s, MysqlCall.from_ t,
            MysqlCall.limit (to_wstring (as_integer n))]]
      ∧ (-2147483648 ≤ n → n ≤ 2147483647 →
        (getMysqlQueryResults queryAll query_obj result).executed
          = [[MysqlCall.select s, MysqlCall.from_ t, MysqlCall.limit (decimal n)]]) := by
  have hb : buildQuery query_obj
      = Except.ok [MysqlCall.select s, MysqlCall.from_ t,
          MysqlCall.limit (to_wstring (as_integer n))] := by
    unfold buildQuery buildClauses
    rw [hs, hf, hl, hother "Distinct" (by decide) (by decide) (by decide),
      hother "Join" (by decide) (by decide) (by decide),
      hother "LeftJoin" (by decide) (by decide) (by decide),
      hother "RightJoin" (by decide) (by decide) (by decide),
      hother "NaturalJoin" (by decide) (by decide) (by decide),
      hother "CrossJoin" (by decide) (by decide) (by decide),
      hother "Where" (by decide) (by decide) (by decide),
      hother "AndWhere" (by decide) (by decide) (by decide),
      hother "OrWhere" (by decide) (by decide) (by decide),
      hother "Group" (by decide) (by decide) (by decide),
      hother "Having" (by decide) (by decide) (by decide),
      hother "Union" (by decide) (by decide) (by decide),
      hother "Order" (by decide) (by decide) (by decide),
      hother "Offset" (by decide) (by decide) (by decide)]
    rfl
  obtain ⟨h1, _, h3⟩ := getMysqlQueryResults_of_ok queryAll query_obj result _ hb
  refine ⟨h1, h3, ?_⟩
  intro hlo hhi
  rw [h3, to_wstring_of_range n hlo hhi]

/-- C6, witness: the document {"Select":"a,b","From":"t","Limit":5} yields the
query `select("a,b")`, `from("t")`, `limit("5")`. -/
theorem c6_select_from_limit_witness :
    (getMysqlQueryResults (fun _ => []) [("Select", value.string "a,b"),
        ("From", value.string "t"), ("Limit", value.integer 5)] value.null).returned = some true
      ∧ (getMysqlQueryResults (fun _ => []) [("Select", value.string "a,b"),
        ("From", value.string "t"), ("Limit", value.integer 5)] value.null).executed
        = [[MysqlCall.select "a,b", MysqlCall.from_ "t", MysqlCall.limit "5"]] :=
  ⟨(c6_select_from_limit (fun _ => []) [("Select", value.string "a,b"),
      ("From", value.string "t"), ("Limit", value.integer 5)] value.null "a,b" "t" 5
    rfl rfl rfl (by
      intro key h1 h2 h3
      simp [find, Ne.symm h1, Ne.symm h2, Ne.symm h3])).1,
   (c6_select_from_limit (fun _ => []) [("Select", value.string "a,b"),
      ("From", value.string "t"), ("Limit", value.integer 5)] value.null "a,b" "t" 5
    rfl rfl rfl (by
      intro key h1 h2 h3
      simp [find, Ne.symm h1, Ne.symm h2, Ne.symm h3])).2.2 (by decide) (by decide)⟩

/-- C6, counterexample: in {"Select":"a,b","From":"t","Limit":5000000000} the
only fields are a string `Select`, a string `From` and an integer `Limit`, and
the query that is run is not `select("a,b")`, `from("t")`,
`limit("5000000000")`: the limit is read as an `int`, which cannot hold
5000000000. -/
theorem c6_counterexample :
    find [("Select", value.string "a,b"), ("From", value.string "t"),
        ("Limit", value.integer 5000000000)] "Limit" = some (value.integer 5000000000)
      ∧ (getMysqlQueryResults (fun _ => []) [("Select", value.string "a,b"),
        ("From", value.string "t"), ("Limit", value.integer 5000000000)] value.null).returned
        = some true
      ∧ (getMysqlQueryResults (fun _ => []) [("Select", value.string "a,b"),
        ("From", value.string "t"), ("Limit", value.integer 5000000000)] value.null).executed
        ≠ [[MysqlCall.select "a,b", MysqlCall.from_ "t", MysqlCall.limit "5000000000"]] :=
  ⟨rfl, rfl, by decide⟩

/-- C7, as amended.  For every document that is valid in its other clauses:
the function returns false when `Limit` is present with a value that is neither
string nor integer, and when `Limit` and `Offset` are both present and `Offset`
is neither string nor integer; when `Limit` is absent `Offset` is not examined
and the function succeeds, whatever `Offset` holds. -/
theorem c7_limit_offset_kinds (queryAll : MysqlQuery → List table_entity)
    (query_obj : object) (result : value) (hvalid : validClauses query_obj = true) :
    (∀ lim, find query_obj "Limit" = some lim →
        lim.is_string = false → lim.is_integer = false →
        (getMysqlQueryResults queryAll query_obj result).returned = some false)
      ∧ (∀ lim off, find query_obj "Limit" = some lim → find query_obj "Offset" = some off →
        off.is_string = false → off.is_integer = false →
        (getMysqlQueryResults queryAll query_obj result).returned = some false)
      ∧ (find query_obj "Limit" = none →
        (getMysqlQueryResults queryAll query_obj result).returned = some true) := by
  obtain ⟨c, hc⟩ := buildClauses_ok_of_valid query_obj hvalid
  have hb := buildQuery_of_clauses query_obj c hc
  refine ⟨?_, ?_, ?_⟩
  · intro lim hlim h1 h2
    have hstop : buildQuery query_obj = Except.error Stop.return_false := by
      rw [hb, hlim]
      cases hoff : find query_obj "Offset" with
      | none => rw [limitClause_alone_of_kind lim h1 h2]
      | some off => rw [limitClause_both, limitText_none_of_kind lim h1 h2]
    simpa using (getMysqlQueryResults_of_stop queryAll query_obj result _ hstop).1
  · intro lim off hlim hoff h1 h2
    have hstop : buildQuery query_obj = Except.error Stop.return_false := by
      rw [hb, hlim, hoff, limitClause_both, limitText_none_of_kind off h1 h2]
      cases limitText lim <;> rfl
    simpa using (getMysqlQueryResults_of_stop queryAll query_obj result _ hstop).1
  · intro hlim
    have hok : buildQuery query_obj = Except.ok (c ++ []) := by
      rw [hb, hlim, limitClause_absent]
    exact (getMysqlQueryResults_of_ok queryAll query_obj result _ hok).1

/-- C7, witness: {"From":"t","Limit":true} is valid in its other clauses and is
answered with false. -/
theorem c7_limit_offset_kinds_witness :
    validClauses [("From", value.string "t"), ("Limit", value.boolean true)] = true
      ∧ (getMysqlQueryResults (fun _ => [])
          [("From", value.string "t"), ("Limit", value.boolean true)] value.null).returned
        = some false :=
  ⟨rfl, (c7_limit_offset_kinds (fun _ => [])
      [("From", value.string "t"), ("Limit", value.boolean true)] value.null rfl).1
      (value.boolean true) rfl rfl rfl⟩

/-- C7, counterexample: {"From":"t","Offset":true} is valid in its other
clauses and has an `Offset` that is neither string nor integer, without `Limit`;
the function does not return false on it, it succeeds. -/
theorem c7_counterexample :
    validClauses [("From", value.string "t"), ("Offset", value.boolean true)] = true
      ∧ find [("From", value.string "t"), ("Offset", value.boolean true)] "Offset"
        = some (value.boolean true)
      ∧ (value.boolean true).is_string = false ∧ (value.boolean true).is_integer = false
      ∧ (getMysqlQueryResults (fun _ => [])
          [("From", value.string "t"), ("Offset", value.boolean true)] value.null).returned
        = some true :=
  ⟨rfl, rfl, rfl, rfl, rfl⟩

/-- C8, as amended.  For every document that is valid in its other clauses.
With `Limit` and `Offset` both present: if each is a string or an integer the
function succeeds and the query it runs has exactly one limit call,
`limit(offset, limit)`, whose texts are those of the document's `Offset` and
`Limit`, a string as it is and an integer as the decimal rendering of the `int`
that `as_integer()` reads from it; when neither is an integer outside the range
of `int`, these are the document's `Offset` and `Limit` with integers in
decimal.  If either is of another kind the function returns false and runs no
query.  With `Limit` absent the function succeeds and the query it runs has no
limit call. -/
theorem c8_limit_with_offset (queryAll : MysqlQuery → List table_entity)
    (query_obj : object) (result : value) (hvalid : validClauses query_obj = true) :
    (∀ lim off l o, find query_obj "Limit" = some lim → find query_obj "Offset" = some off →
        limitText lim = some l → limitText off = some o →
        (getMysqlQueryResults queryAll query_obj result).returned = some true
          ∧ ∃ q, (getMysqlQueryResults queryAll query_obj result).executed = [q]
            ∧ q.filter isLimitCall = [MysqlCall.limitOffset o l])
      ∧ (∀ lim off l o, find query_obj "Limit" = some lim → find query_obj "Offset" = some off →
        fitsInt lim = true → fitsInt off = true →
        decimalText lim = some l → decimalText off = some o →
        (getMysqlQueryResults queryAll query_obj result).returned = some true
          ∧ ∃ q, (getMysqlQueryResults queryAll query_obj result).executed = [q]
            ∧ q.filter isLimitCall = [MysqlCall.limitOffset o l])
      ∧ (∀ lim off, find query_obj "Limit" = some lim → find query_obj "Offset" = some off →
        ((lim.is_string = false ∧ lim.is_integer = false)
          ∨ (off.is_string = false ∧ off.is_integer = false)) →
        (getMysqlQueryResults queryAll query_obj result).returned = some false
          ∧ (getMysqlQueryResults queryAll query_obj result).executed = [])
      ∧ (find query_obj "Limit" = none →
        (getMysqlQueryResults queryAll query_obj result).returned = some true
          ∧ ∃ q, (getMysqlQueryResults queryAll query_obj result).executed = [q]
            ∧ q.filter isLimitCall = []) := by
  obtain ⟨c, hc⟩ := buildClauses_ok_of_valid query_obj hvalid
  have hb := buildQuery_of_clauses query_obj c hc
  have hnil : c.filter isLimitCall = [] :=
    filter_nil_of_forall _ _ (buildClauses_not_limit query_obj c hc)
  have hboth : ∀ lim off l o, find query_obj "Limit" = some lim →
      find query_obj "Offset" = some off → limitText lim = some l → limitText off = some o →
      (getMysqlQueryResults queryAll query_obj result).returned = some true
        ∧ ∃ q, (getMysqlQueryResults queryAll query_obj result).executed = [q]
          ∧ q.filter isLimitCall = [MysqlCall.limitOffset o l] := by
    intro lim off l o hlim hoff hl ho
    have hok : buildQuery query_obj = Except.ok (c ++ [MysqlCall.limitOffset o l]) := by
      rw [hb, hlim, hoff, limitClause_both, hl, ho]
    obtain ⟨h1, _, h3⟩ := getMysqlQueryResults_of_ok queryAll query_obj result _ hok
    refine ⟨h1, _, h3, ?_⟩
    rw [List.filter_append, hnil]
    rfl
  refine ⟨hboth, ?_, ?_, ?_⟩
  · intro lim off l o hlim hoff hfl hfo hl ho
    rw [← limitText_of_fitsInt lim hfl] at hl
    rw [← limitText_of_fitsInt off hfo] at ho
    exact hboth lim off l o hlim hoff hl ho
  · intro lim off hlim hoff hkind
    have hstop : buildQuery query_obj = Except.error Stop.return_false := by
      rw [hb, hlim, hoff, limitClause_both]
      rcases hkind with ⟨h1, h2⟩ | ⟨h1, h2⟩
      · rw [limitText_none_of_kind lim h1 h2]
      · rw [limitText_none_of_kind off h1 h2]
        cases limitText lim <;> rfl
    obtain ⟨h1, _, h3⟩ := getMysqlQueryResults_of_stop queryAll query_obj result _ hstop
    exact ⟨by simpa using h1, h3⟩
  · intro hlim
    have hok : buildQuery query_obj = Except.ok (c ++ []) := by
      rw [hb, hlim, limitClause_absent]
    obtain ⟨h1, _, h3⟩ := getMysqlQueryResults_of_ok queryAll query_obj result _ hok
    refine ⟨h1, _, h3, ?_⟩
    rw [List.append_nil]
    exact hnil

/-- C8, witness: {"From":"t","Limit":5,"Offset":"10"} is valid in its other
clauses, and the query run for it has the single limit call
`limit("10", "5")`. -/
theorem c8_limit_with_offset_witness :
    validClauses [("From", value.string "t"), ("Limit", value.integer 5),
        ("Offset", value.string "10")] = true
      ∧ ((getMysqlQueryResults (fun _ => []) [("From", value.string "t"),
          ("Limit", value.integer 5), ("Offset", value.string "10")] value.null).returned
          = some true
        ∧ ∃ q, (getMysqlQueryResults (fun _ => []) [("From", value.string "t"),
            ("Limit", value.integer 5), ("Offset", value.string "10")] value.null).executed = [q]
          ∧ q.filter isLimitCall = [MysqlCall.limitOffset "10" "5"]) :=
  ⟨rfl, (c8_limit_with_offset (fun _ => []) [("From", value.string "t"),
      ("Limit", value.integer 5), ("Offset", value.string "10")] value.null rfl).2.1
      (value.integer 5) (value.string "10") "5" "10" rfl rfl rfl rfl rfl rfl⟩

/-- C8, counterexample: {"From":"t","Limit":2147483648,"Offset":0} is valid in
its other clauses and has an integer `Limit` and an integer `Offset`, and the
query that is run is not `select()`, `from("t")`, `limit("0", "2147483648")`:
the limit is read as an `int`, which cannot hold 2147483648. -/
theorem c8_counterexample :
    validClauses [("From", value.string "t"), ("Limit", value.integer 2147483648),
        ("Offset", value.integer 0)] = true
      ∧ (getMysqlQueryResults (fun _ => []) [("From", value.string "t"),
          ("Limit", value.integer 2147483648), ("Offset", value.integer 0)]
          value.null).returned = some true
      ∧ (getMysqlQueryResults (fun _ => []) [("From", value.string "t"),
          ("Limit", value.integer 2147483648), ("Offset", value.integer 0)]
          value.null).executed
        ≠ [[MysqlCall.selectAll, MysqlCall.from_ "t",
            MysqlCall.limitOffset "0" "2147483648"]] :=
  ⟨rfl, rfl, by decide⟩

/-- C9, as amended.  Whenever the function reaches its query, the select calls
of that query are, in this order: `selectDistinct(Distinct)` if `Distinct` is
present, and then in every case one more call, `select(Select)` if `Select` is
present and `select()` if it is not. -/
theorem c9_select_resolution (query_obj : object) (q : MysqlQuery)
    (h : buildQuery query_obj = Except.ok q) :
    (∀ d s, find query_obj "Distinct" = some (value.string d) →
        find query_obj "Select" = some (value.string s) →
        q.filter isSelectCall = [MysqlCall.selectDistinct d, MysqlCall.select s])
      ∧ (∀ d, find query_obj "Distinct" = some (value.string d) →
        find query_obj "Select" = none →
        q.filter isSelectCall = [MysqlCall.selectDistinct d, MysqlCall.selectAll])
      ∧ (∀ s, find query_obj "Distinct" = none →
        find query_obj "Select" = some (value.string s) →
        q.filter isSelectCall = [MysqlCall.select s])
      ∧ (find query_obj "Distinct" = none → find query_obj "Select" = none →
        q.filter isSelectCall = [MysqlCall.selectAll]) := by
  obtain ⟨c1, c2, h1, h2, hq⟩ := buildQuery_selects query_obj q h
  refine ⟨?_, ?_, ?_, ?_⟩
  · intro d s hd hs
    rw [hd] at h1
    rw [hs] at h2
    cases h1
    cases h2
    exact hq
  · intro d hd hs
    rw [hd] at h1
    rw [hs] at h2
    cases h1
    cases h2
    exact hq
  · intro s hd hs
    rw [hd] at h1
    rw [hs] at h2
    cases h1
    cases h2
    exact hq
  · intro hd hs
    rw [hd] at h1
    rw [hs] at h2
    cases h1
    cases h2
    exact hq

/-- C9, witness: for {"Distinct":"a","From":"t"} the query is reached and its
select calls are `selectDistinct("a")` followed by `select()`. -/
theorem c9_select_resolution_witness :
    buildQuery [("Distinct", value.string "a"), ("From", value.string "t")]
        = Except.ok [MysqlCall.selectDistinct "a", MysqlCall.selectAll, MysqlCall.from_ "t"]
      ∧ [MysqlCall.selectDistinct "a", MysqlCall.selectAll, MysqlCall.from_ "t"].filter
          isSelectCall = [MysqlCall.selectDistinct "a", MysqlCall.selectAll] :=
  ⟨rfl, (c9_select_resolution [("Distinct", value.string "a"), ("From", value.string "t")]
      [MysqlCall.selectDistinct "a", MysqlCall.selectAll, MysqlCall.from_ "t"] rfl).2.1
      "a" rfl rfl⟩

/-- C9, counterexample: {"Distinct":"a","Select":"b","From":"t"} has `Distinct`,
and the query run for it received `select("b")` after `selectDistinct("a")`: a
second select call is made. -/
theorem c9_counterexample :
    find [("Distinct", value.string "a"), ("Select", value.string "b"),
        ("From", value.string "t")] "Distinct" = some (value.string "a")
      ∧ (getMysqlQueryResults (fun _ => []) [("Distinct", value.string "a"),
        ("Select", value.string "b"), ("From", value.string "t")] value.null).executed
        = [[MysqlCall.selectDistinct "a", MysqlCall.select "b", MysqlCall.from_ "t"]] :=
  ⟨rfl, rfl⟩

/-- C10.  When the function returns false, `result` is as on entry and no
query was run; the same holds when a `json_exception` leaves it.  When it returns
true, exactly one query was run, the one built from the document, and `result`
is `generateAzureEntityMeta` of the rows the backend gave for it. -/
theorem c10_result_frame (queryAll : MysqlQuery → List table_entity)
    (query_obj : object) (result : value) :
    ((getMysqlQueryResults queryAll query_obj result).returned = some false →
        (getMysqlQueryResults queryAll query_obj result).result = result
          ∧ (getMysqlQueryResults queryAll query_obj result).executed = [])
      ∧ ((getMysqlQueryResults queryAll query_obj result).returned = none →
        (getMysqlQueryResults queryAll query_obj result).result = result
          ∧ (getMysqlQueryResults queryAll query_obj result).executed = [])
      ∧ ((getMysqlQueryResults queryAll query_obj result).returned = some true →
        ∃ query, buildQuery query_obj = Except.ok query
          ∧ (getMysqlQueryResults queryAll query_obj result).executed = [query]
          ∧ (getMysqlQueryResults queryAll query_obj result).result
            = generateAzureEntityMeta (queryAll query)) := by
  cases hb : buildQuery query_obj with
  | error e =>
    obtain ⟨h1, h2, h3⟩ := getMysqlQueryResults_of_stop queryAll query_obj result e hb
    refine ⟨fun _ => ⟨h2, h3⟩, fun _ => ⟨h2, h3⟩, ?_⟩
    intro ht
    rw [h1] at ht
    cases e <;> simp at ht
  | ok q =>
    obtain ⟨h1, h2, h3⟩ := getMysqlQueryResults_of_ok queryAll query_obj result q hb
    refine ⟨?_, ?_, fun _ => ⟨q, rfl, h3, h2⟩⟩
    · intro hf
      rw [h1] at hf
      cases hf
    · intro hf
      rw [h1] at hf
      cases hf

end Metadata

/-! ## Documents that pass the clauses are the valid ones -/

namespace Metadata

open json

theorem stringClause_valid_of_ok (f : String → MysqlCall) (iter : Option value)
    (c : MysqlQuery) (h : stringClause f iter = Except.ok c) : stringOrAbsent iter = true := by
  rw [stringClause_eq] at h
  by_contra hn
  rw [if_neg hn] at h
  cases h

theorem selectClause_valid_of_ok (iter : Option value) (c : MysqlQuery)
    (h : selectClause iter = Except.ok c) : stringOrAbsent iter = true := by
  rw [selectClause_eq] at h
  by_contra hn
  rw [if_neg hn] at h
  cases h

theorem fromClause_valid_of_ok (iter : Option value) (c : MysqlQuery)
    (h : fromClause iter = Except.ok c) : stringPresent iter = true := by
  cases iter with
  | none => cases h
  | some v => cases v <;> first | rfl | cases h

theorem joinEntry_valid_of_ok (f : String → String → MysqlCall) (e : value) (c : MysqlQuery)
    (h : joinEntry f e = Except.ok c) : entryValid e = true := by
  unfold joinEntry at h
  split at h
  · simp only [bind_ok_iff, pure, Except.pure] at h
    obtain ⟨tv, h1, cv, h2, t, h3, k, h4, _⟩ := h
    unfold entryValid
    rw [h1, h2]
    cases tv <;> cases cv <;>
      first | (cases h3; cases h4; rfl) | (cases h3; cases h4) | cases h3
  · cases h

theorem joinLoop_valid_of_ok (f : String → String → MysqlCall) (elements : List value)
    (c : MysqlQuery) (h : joinLoop f elements = Except.ok c) :
    elements.all entryValid = true := by
  induction elements generalizing c with
  | nil => rfl
  | cons e rest ih =>
    simp only [joinLoop, bind_ok_iff, pure, Except.pure] at h
    obtain ⟨a, ha, b, hb, _⟩ := h
    simp only [List.all_cons, Bool.and_eq_true]
    exact ⟨joinEntry_valid_of_ok f e a ha, ih b hb⟩

theorem joinClause_valid_of_ok (single looped : String → String → MysqlCall)
    (iter : Option value) (c : MysqlQuery) (h : joinClause single looped iter = Except.ok c) :
    joinValid iter = true := by
  cases iter with
  | none => rfl
  | some v =>
    cases v with
    | object fields => exact joinEntry_valid_of_ok single _ c h
    | array elements => exact joinLoop_valid_of_ok looped elements c h
    | _ => cases h

theorem stringLoop_valid_of_ok (f : String → MysqlCall) (elements : List value)
    (c : MysqlQuery) (h : stringLoop f elements = Except.ok c) :
    elements.all value.is_string = true := by
  induction elements generalizing c with
  | nil => rfl
  | cons e rest ih =>
    simp only [stringLoop, bind_ok_iff, pure, Except.pure] at h
    obtain ⟨s, hs, b, hb, _⟩ := h
    simp only [List.all_cons, Bool.and_eq_true]
    refine ⟨?_, ih b hb⟩
    cases e <;> first | rfl | cases hs

theorem tableClause_valid_of_ok (f : String → MysqlCall) (iter : Option value)
    (c : MysqlQuery) (h : tableClause f iter = Except.ok c) : tablesValid iter = true := by
  cases iter with
  | none => rfl
  | some v =>
    cases v with
    | array elements => exact stringLoop_valid_of_ok f elements c h
    | _ => cases h

theorem extraWhereClause_valid_of_ok (f : String → MysqlCall) (iter : Option value)
    (c : MysqlQuery) (h : extraWhereClause f iter = Except.ok c) :
    extraWhereValid iter = true := by
  cases iter with
  | none => rfl
  | some v =>
    cases v with
    | array elements => exact stringLoop_valid_of_ok f elements c h
    | string s => rfl
    | _ => cases h

/-- A document passes all clauses before `Limit`/`Offset` exactly when it is
valid in them. -/
theorem buildClauses_ok_iff_valid (query_obj : object) :
    (∃ c, buildClauses query_obj = Except.ok c) ↔ validClauses query_obj = true := by
  constructor
  · rintro ⟨c, hc⟩
    obtain ⟨c1, c2, c3, c4, c5, c6, c7, c8, c9, c10, c11, c12, c13, c14, c15,
      h1, h2, h3, h4, h5, h6, h7, h8, h9, h10, h11, h12, h13, h14, h15, _⟩ :=
      (buildClauses_ok_iff query_obj c).1 hc
    simp only [validClauses, Bool.and_eq_true]
    exact ⟨⟨⟨⟨⟨⟨⟨⟨⟨⟨⟨⟨⟨⟨stringClause_valid_of_ok _ _ _ h1, selectClause_valid_of_ok _ _ h2⟩,
      fromClause_valid_of_ok _ _ h3⟩, joinClause_valid_of_ok _ _ _ _ h4⟩,
      joinClause_valid_of_ok _ _ _ _ h5⟩, joinClause_valid_of_ok _ _ _ _ h6⟩,
      tableClause_valid_of_ok _ _ _ h7⟩, tableClause_valid_of_ok _ _ _ h8⟩,
      stringClause_valid_of_ok _ _ _ h9⟩, extraWhereClause_valid_of_ok _ _ _ h10⟩,
      extraWhereClause_valid_of_ok _ _ _ h11⟩, stringClause_valid_of_ok _ _ _ h12⟩,
      stringClause_valid_of_ok _ _ _ h13⟩, stringClause_valid_of_ok _ _ _ h14⟩,
      stringClause_valid_of_ok _ _ _ h15⟩
  · exact buildClauses_ok_of_valid query_obj

theorem buildQuery_not_ok_of_invalid (query_obj : object)
    (h : validClauses query_obj = false) (q : MysqlQuery) :
    buildQuery query_obj ≠ Except.ok q := by
  intro hq
  obtain ⟨c, l, hc, _, _⟩ := (buildQuery_ok_iff query_obj q).1 hq
  have hv := (buildClauses_ok_iff_valid query_obj).1 ⟨c, hc⟩
  rw [h] at hv
  cases hv

theorem getMysqlQueryResults_of_invalid (queryAll : MysqlQuery → List table_entity)
    (query_obj : object) (result : value) (h : validClauses query_obj = false) :
    (getMysqlQueryResults queryAll query_obj result).returned ≠ some true
      ∧ (getMysqlQueryResults queryAll query_obj result).result = result
      ∧ (getMysqlQueryResults queryAll query_obj result).executed = [] := by
  cases hb : buildQuery query_obj with
  | ok q => exact absurd hb (buildQuery_not_ok_of_invalid query_obj h q)
  | error e =>
    obtain ⟨h1, h2, h3⟩ := getMysqlQueryResults_of_stop queryAll query_obj result e hb
    refine ⟨?_, h2, h3⟩
    rw [h1]
    cases e <;> simp

end Metadata

/-! ## Theorems on malformed clauses -/

namespace Metadata

open json

theorem joinTyped_of_valid (iter : Option value) (h : joinValid iter = true) :
    joinTyped iter = true := by
  cases iter with
  | none => rfl
  | some v =>
    cases v with
    | object fields =>
      simp only [joinValid] at h
      simp [joinTyped, h]
    | array elements =>
      simp only [joinValid, List.all_eq_true] at h
      simp only [joinTyped, List.all_eq_true]
      intro e he
      simp [h e he]
    | _ => rfl

theorem buildQuery_of_untyped_head (query_obj : object)
    (hbad : stringOrAbsent (find query_obj "Distinct") = false
      ∨ stringOrAbsent (find query_obj "Select") = false
      ∨ stringOrAbsent (find query_obj "From") = false) :
    buildQuery query_obj = Except.error Stop.json_exception := by
  unfold buildQuery buildClauses
  rw [stringClause_eq, selectClause_eq]
  cases hd : stringOrAbsent (find query_obj "Distinct") with
  | false => rfl
  | true =>
    cases hs : stringOrAbsent (find query_obj "Select") with
    | false => rfl
    | true =>
      have hf : stringOrAbsent (find query_obj "From") = false := by
        rcases hbad with h | h | h
        · rw [hd] at h; cases h
        · rw [hs] at h; cases h
        · exact h
      cases hfind : find query_obj "From" with
      | none => rw [hfind] at hf; cases hf
      | some v =>
        rw [hfind] at hf
        cases v <;> first | rfl | cases hf

end Metadata

namespace Metadata

open json

theorem stringOrAbsent_of_present (iter : Option value) (h : stringPresent iter = true) :
    stringOrAbsent iter = true := by
  cases iter with
  | none => cases h
  | some v => cases v <;> first | rfl | cases h

theorem validClauses_false_of_untyped (query_obj : object)
    (hbad : stringOrAbsent (find query_obj "Distinct") = false
      ∨ stringOrAbsent (find query_obj "Select") = false
      ∨ stringOrAbsent (find query_obj "From") = false
      ∨ stringOrAbsent (find query_obj "Where") = false
      ∨ stringOrAbsent (find query_obj "Group") = false
      ∨ stringOrAbsent (find query_obj "Having") = false
      ∨ stringOrAbsent (find query_obj "Union") = false
      ∨ stringOrAbsent (find query_obj "Order") = false
      ∨ joinTyped (find query_obj "Join") = false
      ∨ joinTyped (find query_obj "LeftJoin") = false
      ∨ joinTyped (find query_obj "RightJoin") = false) :
    validClauses query_obj = false := by
  cases hv : validClauses query_obj with
  | false => rfl
  | true =>
    simp only [validClauses, Bool.and_eq_true] at hv
    obtain ⟨⟨⟨⟨⟨⟨⟨⟨⟨⟨⟨⟨⟨⟨h1, h2⟩, h3⟩, h4⟩, h5⟩, h6⟩, _⟩, _⟩, h9⟩, _⟩, _⟩, h12⟩, h13⟩, h14⟩, h15⟩ := hv
    have h3' := stringOrAbsent_of_present _ h3
    have h4' := joinTyped_of_valid _ h4
    have h5' := joinTyped_of_valid _ h5
    have h6' := joinTyped_of_valid _ h6
    rcases hbad with h | h | h | h | h | h | h | h | h | h | h
    · rw [h1] at h; cases h
    · rw [h2] at h; cases h
    · rw [h3'] at h; cases h
    · rw [h9] at h; cases h
    · rw [h12] at h; cases h
    · rw [h13] at h; cases h
    · rw [h14] at h; cases h
    · rw [h15] at h; cases h
    · rw [h4'] at h; cases h
    · rw [h5'] at h; cases h
    · rw [h6'] at h; cases h

/-- C12, as amended.  For every document in which `Distinct`, `Select`, `From`,
`Where`, `Group`, `Having`, `Union` or `Order` is present with a non-string
value, or a join entry that has both fields holds a non-string in one of them:
the function never succeeds, leaves `result` untouched and runs no query.  The
outcome is not always `return false`: when the non-string value is that of
`Distinct`, `Select` or `From`, a `json_exception` leaves the function. -/
theorem c12_non_string_clause (queryAll : MysqlQuery → List table_entity)
    (query_obj : object) (result : value)
    (hbad : stringOrAbsent (find query_obj "Distinct") = false
      ∨ stringOrAbsent (find query_obj "Select") = false
      ∨ stringOrAbsent (find query_obj "From") = false
      ∨ stringOrAbsent (find query_obj "Where") = false
      ∨ stringOrAbsent (find query_obj "Group") = false
      ∨ stringOrAbsent (find query_obj "Having") = false
      ∨ stringOrAbsent (find query_obj "Union") = false
      ∨ stringOrAbsent (find query_obj "Order") = false
      ∨ joinTyped (find query_obj "Join") = false
      ∨ joinTyped (find query_obj "LeftJoin") = false
      ∨ joinTyped (find query_obj "RightJoin") = false) :
    (getMysqlQueryResults queryAll query_obj result).returned ≠ some true
      ∧ (getMysqlQueryResults queryAll query_obj result).result = result
      ∧ (getMysqlQueryResults queryAll query_obj result).executed = []
      ∧ ((stringOrAbsent (find query_obj "Distinct") = false
          ∨ stringOrAbsent (find query_obj "Select") = false
          ∨ stringOrAbsent (find query_obj "From") = false) →
        (getMysqlQueryResults queryAll query_obj result).returned = none) := by
  obtain ⟨h1, h2, h3⟩ := getMysqlQueryResults_of_invalid queryAll query_obj result
    (validClauses_false_of_untyped query_obj hbad)
  refine ⟨h1, h2, h3, ?_⟩
  intro hhead
  have hb := buildQuery_of_untyped_head query_obj hhead
  simpa using (getMysqlQueryResults_of_stop queryAll query_obj result _ hb).1

/-- C12, witness: {"From":5} has a non-string `From`; the function is left by a
`json_exception`. -/
theorem c12_non_string_clause_witness :
    stringOrAbsent (find [("From", value.integer 5)] "From") = false
      ∧ (getMysqlQueryResults (fun _ => []) [("From", value.integer 5)] value.null).returned
        = none :=
  ⟨rfl, (c12_non_string_clause (fun _ => []) [("From", value.integer 5)] value.null
      (Or.inr (Or.inr (Or.inl rfl)))).2.2.2 (Or.inr (Or.inr rfl))⟩

/-- C12, counterexample: {"From":"t","Where":5} has a non-string `Where`, and the
function does not return false: `json_exception` leaves it. -/
theorem c12_counterexample :
    stringOrAbsent (find [("From", value.string "t"), ("Where", value.integer 5)] "Where")
        = false
      ∧ (getMysqlQueryResults (fun _ => [])
          [("From", value.string "t"), ("Where", value.integer 5)] value.null).returned
        ≠ some false :=
  ⟨rfl, by decide⟩

end Metadata

/-! ## The order of the join clauses -/

namespace Metadata

open json

end Metadata

/-! ## Theorems on the ad-hoc filter -/

namespace Metadata

/-- C14.  The function `getCondition` is total: it maps "le" to " <= ", "ge" to
" >= ", "gt" to " > ", "ne" to " != ", and every string that is not one of the
five entries of its table ("le", " lt ", "ge", "gt", "ne") to " = "; so do "eq",
"xyz" and the empty string. -/
theorem c14_getCondition_table :
    getCondition "le" = " <= " ∧ getCondition "ge" = " >= " ∧ getCondition "gt" = " > "
      ∧ getCondition "ne" = " != "
      ∧ (∀ condition : String, condition ≠ "le" → condition ≠ " lt " → condition ≠ "ge" →
          condition ≠ "gt" → condition ≠ "ne" → getCondition condition = " = ")
      ∧ getCondition "eq" = " = " ∧ getCondition "xyz" = " = " ∧ getCondition "" = " = " := by
  refine ⟨by decide, by decide, by decide, by decide, ?_, by decide, by decide, by decide⟩
  intro condition h1 h2 h3 h4 h5
  simp [getCondition, h1, h2, h3, h4, h5]

theorem whereText_full (m : List (String × String)) (attr con val a c v : String)
    (ha : map_find m attr = some a) (hc : map_find m con = some c)
    (hv : map_find m val = some v) : whereText m attr con val = a ++ getCondition c ++ v := by
  simp [whereText, ha, hc, hv]

theorem whereText_partial (m : List (String × String)) (attr con val : String)
    (h : map_find m attr = none ∨ map_find m con = none ∨ map_find m val = none) :
    whereText m attr con val = "" := by
  unfold whereText
  rcases h with h | h | h
  · rw [h]
  · rw [h]
    cases map_find m attr <;> rfl
  · rw [h]
    cases map_find m attr <;> cases map_find m con <;> rfl

theorem getMysqlEntitiesQuery_where (table_name : String) (select : Option (List String))
    (m : List (String × String)) :
    (getMysqlEntitiesQuery table_name select (some m)).filter isWhereCall
      = [MysqlCall.where_ (whereText m "first_attr" "first_con" "first_val")] := by
  cases select <;> cases hj : map_find m "join" <;>
    simp [getMysqlEntitiesQuery, mysqlSelectCalls, mysqlFilterCalls, hj, isWhereCall,
      List.filter]

theorem getMysqlEntitiesQuery_extra (table_name : String) (select : Option (List String))
    (m : List (String × String)) :
    (getMysqlEntitiesQuery table_name select (some m)).filter isExtraWhereCall
      = (match map_find m "join" with
        | some join =>
          (if join = "or"
            then [MysqlCall.orWhere (whereText m "second_attr" "second_con" "second_val")]
            else [])
          ++ (if join = "and"
            then [MysqlCall.andWhere (whereText m "second_attr" "second_con" "second_val")]
            else [])
        | none => []) := by
  cases select <;> cases hj : map_find m "join" <;>
    simp [getMysqlEntitiesQuery, mysqlSelectCalls, mysqlFilterCalls, hj, isExtraWhereCall,
      List.filter]
  all_goals (split_ifs <;> simp [List.filter, isExtraWhereCall])

/-- C15.  The code "lt" is not an entry of the table of `getCondition`: it is
mapped to " = ".  The operator " < " is returned for " lt " and for no other
string.  So a filter with first_con=lt is built as an equality condition:
`where` receives attribute ++ " = " ++ value. -/
theorem c15_lt_falls_to_equality :
    getCondition "lt" = " = "
      ∧ (∀ condition : String, getCondition condition = " < " ↔ condition = " lt ")
      ∧ (∀ (table_name : String) (select : Option (List String)) (m : List (String × String))
          (a v : String),
          map_find m "first_attr" = some a → map_find m "first_con" = some "lt" →
          map_find m "first_val" = some v →
          (getMysqlEntitiesQuery table_name select (some m)).filter isWhereCall
            = [MysqlCall.where_ (a ++ " = " ++ v)]) := by
  refine ⟨by decide, ?_, ?_⟩
  · intro condition
    constructor
    · intro h
      by_contra hne
      unfold getCondition at h
      split_ifs at h <;> revert h <;> decide
    · intro h
      rw [h]
      decide
  · intro table_name select m a v ha hc hv
    rw [getMysqlEntitiesQuery_where,
      whereText_full m "first_attr" "first_con" "first_val" a "lt" v ha hc hv]
    rfl

/-- C16.  For every filter-parameter map read by `getMysqlEntities`: when
first_attr, first_con and first_val are all present, the one `where` call of the
query receives attribute ++ getCondition(operator) ++ value; when one of them is
missing, no condition text is built from the other two and the `where` call
receives the empty string.  For {first_attr=Name, first_con=eq, first_val=Bob}
the query is `from(table)`, `where("Name = Bob")`, with no `andWhere` or
`orWhere`. -/
theorem c16_primary_condition (table_name : String) (select : Option (List String))
    (m : List (String × String)) :
    (∀ a c v, map_find m "first_attr" = some a → map_find m "first_con" = some c →
        map_find m "first_val" = some v →
        (getMysqlEntitiesQuery table_name select (some m)).filter isWhereCall
          = [MysqlCall.where_ (a ++ getCondition c ++ v)])
      ∧ ((map_find m "first_attr" = none ∨ map_find m "first_con" = none
          ∨ map_find m "first_val" = none) →
        (getMysqlEntitiesQuery table_name select (some m)).filter isWhereCall
          = [MysqlCall.where_ ""])
      ∧ getMysqlEntitiesQuery table_name none
          (some [("first_attr", "Name"), ("first_con", "eq"), ("first_val", "Bob")])
        = [MysqlCall.from_ table_name, MysqlCall.where_ "Name = Bob"] := by
  refine ⟨?_, ?_, ?_⟩
  · intro a c v ha hc hv
    rw [getMysqlEntitiesQuery_where, whereText_full m _ _ _ a c v ha hc hv]
  · intro h
    rw [getMysqlEntitiesQuery_where, whereText_partial m _ _ _ h]
  · rfl

theorem mysqlFilterCalls_of_join (m : List (String × String)) (join : String)
    (h : map_find m "join" = some join) :
    mysqlFilterCalls m
      = [MysqlCall.where_ (whereText m "first_attr" "first_con" "first_val")]
        ++ (if join = "or"
          then [MysqlCall.orWhere (whereText m "second_attr" "second_con" "second_val")]
          else [])
        ++ (if join = "and"
          then [MysqlCall.andWhere (whereText m "second_attr" "second_con" "second_val")]
          else []) := by
  simp [mysqlFilterCalls, h]

theorem mysqlFilterCalls_of_no_join (m : List (String × String))
    (h : map_find m "join" = none) :
    mysqlFilterCalls m
      = [MysqlCall.where_ (whereText m "first_attr" "first_con" "first_val")] := by
  simp [mysqlFilterCalls, h]

theorem azureFilter_full (m : List (String × String)) (attr con val a c v : String)
    (ha : map_find m attr = some a) (hc : map_find m con = some c)
    (hv : map_find m val = some v) :
    azureFilter m attr con val = { property_name := a, condition := c, value := v } := by
  simp [azureFilter, ha, hc, hv]

theorem azureFilter_partial (m : List (String × String)) (attr con val : String)
    (h : map_find m attr = none ∨ map_find m con = none ∨ map_find m val = none) :
    azureFilter m attr con val = {} := by
  unfold azureFilter
  rcases h with h | h | h
  · rw [h]
  · rw [h]
    cases map_find m attr <;> rfl
  · rw [h]
    cases map_find m attr <;> cases map_find m con <;> rfl

theorem azureFilterCalls_of_join (m : List (String × String)) (join : String)
    (h : map_find m "join" = some join) :
    azureFilterCalls m
      = [AzureCall.setFilterCondition
            (azureFilter m "first_attr" "first_con" "first_val").property_name
            (azureFilter m "first_attr" "first_con" "first_val").condition
            (azureFilter m "first_attr" "first_con" "first_val").value]
        ++ (if join = "or" then [AzureCall.setOrFilterCondition
            (azureFilter m "second_attr" "second_con" "second_val").property_name
            (azureFilter m "second_attr" "second_con" "second_val").condition
            (azureFilter m "second_attr" "second_con" "second_val").value] else [])
        ++ (if join = "and" then [AzureCall.setAndFilterCondition
            (azureFilter m "second_attr" "second_con" "second_val").property_name
            (azureFilter m "second_attr" "second_con" "second_val").condition
            (azureFilter m "second_attr" "second_con" "second_val").value] else []) := by
  simp [azureFilterCalls, h]

theorem azureFilterCalls_of_no_join (m : List (String × String))
    (h : map_find m "join" = none) :
    azureFilterCalls m
      = [AzureCall.setFilterCondition
            (azureFilter m "first_attr" "first_con" "first_val").property_name
            (azureFilter m "first_attr" "first_con" "first_val").condition
            (azureFilter m "first_attr" "first_con" "first_val").value] := by
  simp [azureFilterCalls, h]

/-- C17.  For every filter-parameter map with a full first triple (a1, c1, v1)
and a full second triple (a2, c2, v2), the calls of the filter block are: with
join = "or", `where(a1 ++ getCondition(c1) ++ v1)` and then one `orWhere` with
the second condition, no `andWhere`; with join = "and", the same with one
`andWhere` and no `orWhere`; with any other join value or without a join key,
the `where` call alone.  The wide-column path makes the corresponding calls
`setFilterCondition`, `setOrFilterCondition`, `setAndFilterCondition` on the
triples. -/
theorem c17_join_combinator (table_name : String) (select : Option (List String))
    (m : List (String × String)) (a1 c1 v1 a2 c2 v2 : String)
    (h1a : map_find m "first_attr" = some a1) (h1c : map_find m "first_con" = some c1)
    (h1v : map_find m "first_val" = some v1)
    (h2a : map_find m "second_attr" = some a2) (h2c : map_find m "second_con" = some c2)
    (h2v : map_find m "second_val" = some v2) :
    (map_find m "join" = some "or" →
        getMysqlEntitiesQuery table_name select (some m)
            = [MysqlCall.from_ table_name] ++ mysqlSelectCalls select
              ++ [MysqlCall.where_ (a1 ++ getCondition c1 ++ v1),
                  MysqlCall.orWhere (a2 ++ getCondition c2 ++ v2)]
          ∧ getAzureEntitiesQuery table_name select (some m)
            = [AzureCall.create table_name] ++ azureSelectCalls select
              ++ [AzureCall.setFilterCondition a1 c1 v1,
                  AzureCall.setOrFilterCondition a2 c2 v2])
      ∧ (map_find m "join" = some "and" →
        getMysqlEntitiesQuery table_name select (some m)
            = [MysqlCall.from_ table_name] ++ mysqlSelectCalls select
              ++ [MysqlCall.where_ (a1 ++ getCondition c1 ++ v1),
                  MysqlCall.andWhere (a2 ++ getCondition c2 ++ v2)]
          ∧ getAzureEntitiesQuery table_name select (some m)
            = [AzureCall.create table_name] ++ azureSelectCalls select
              ++ [AzureCall.setFilterCondition a1 c1 v1,
                  AzureCall.setAndFilterCondition a2 c2 v2])
      ∧ ((map_find m "join" = none
          ∨ ∃ join, map_find m "join" = some join ∧ join ≠ "or" ∧ join ≠ "and") →
        getMysqlEntitiesQuery table_name select (some m)
            = [MysqlCall.from_ table_name] ++ mysqlSelectCalls select
              ++ [MysqlCall.where_ (a1 ++ getCondition c1 ++ v1)]
          ∧ getAzureEntitiesQuery table_name select (some m)
            = [AzureCall.create table_name] ++ azureSelectCalls select
              ++ [AzureCall.setFilterCondition a1 c1 v1]) := by
  have w1 := whereText_full m "first_attr" "first_con" "first_val" a1 c1 v1 h1a h1c h1v
  have w2 := whereText_full m "second_attr" "second_con" "second_val" a2 c2 v2 h2a h2c h2v
  have f1 := azureFilter_full m "first_attr" "first_con" "first_val" a1 c1 v1 h1a h1c h1v
  have f2 := azureFilter_full m "second_attr" "second_con" "second_val" a2 c2 v2 h2a h2c h2v
  refine ⟨?_, ?_, ?_⟩
  · intro hj
    constructor
    · simp [getMysqlEntitiesQuery, mysqlFilterCalls_of_join m "or" hj, w1, w2]
    · simp [getAzureEntitiesQuery, azureFilterCalls_of_join m "or" hj, f1, f2]
  · intro hj
    constructor
    · simp [getMysqlEntitiesQuery, mysqlFilterCalls_of_join m "and" hj, w1, w2]
    · simp [getAzureEntitiesQuery, azureFilterCalls_of_join m "and" hj, f1, f2]
  · rintro (hj | ⟨join, hj, hor, hand⟩)
    · constructor
      · simp [getMysqlEntitiesQuery, mysqlFilterCalls_of_no_join m hj, w1]
      · simp [getAzureEntitiesQuery, azureFilterCalls_of_no_join m hj, f1]
    · constructor
      · simp [getMysqlEntitiesQuery, mysqlFilterCalls_of_join m join hj, w1, hor, hand]
      · simp [getAzureEntitiesQuery, azureFilterCalls_of_join m join hj, f1, hor, hand]

/-- C17, witness: with both triples full and join=banana the query is
`from("T")`, `where("Name = Bob")`; the second condition is not attached. -/
theorem c17_join_combinator_witness :
    getMysqlEntitiesQuery "T" none (some [("first_attr", "Name"), ("first_con", "eq"),
        ("first_val", "Bob"), ("second_attr", "Age"), ("second_con", "gt"),
        ("second_val", "3"), ("join", "banana")])
      = [MysqlCall.from_ "T"] ++ mysqlSelectCalls none
        ++ [MysqlCall.where_ ("Name" ++ getCondition "eq" ++ "Bob")] :=
  ((c17_join_combinator "T" none [("first_attr", "Name"), ("first_con", "eq"),
        ("first_val", "Bob"), ("second_attr", "Age"), ("second_con", "gt"),
        ("second_val", "3"), ("join", "banana")] "Name" "eq" "Bob" "Age" "gt" "3"
      rfl rfl rfl rfl rfl rfl).2.2 (Or.inr ⟨"banana", rfl, by decide, by decide⟩)).1

/-- C18, as amended.  For every filter-parameter map in which second_attr,
second_con or second_val is missing, no text is built for the second condition,
but the attaching call is still made when join is "or" or "and": `orWhere("")`,
respectively `andWhere("")`, follows the `where` call (on the wide-column path
`setOrFilterCondition`/`setAndFilterCondition` with three empty strings).  For
any other join value, or without a join key, the `where` call stands alone.
Likewise `where` is called with the empty string when the first triple is
incomplete. -/
theorem c18_unresolved_secondary (m : List (String × String))
    (h2 : map_find m "second_attr" = none ∨ map_find m "second_con" = none
      ∨ map_find m "second_val" = none) :
    (map_find m "join" = some "or" →
        mysqlFilterCalls m
            = [MysqlCall.where_ (whereText m "first_attr" "first_con" "first_val"),
                MysqlCall.orWhere ""]
          ∧ azureFilterCalls m
            = [AzureCall.setFilterCondition
                  (azureFilter m "first_attr" "first_con" "first_val").property_name
                  (azureFilter m "first_attr" "first_con" "first_val").condition
                  (azureFilter m "first_attr" "first_con" "first_val").value,
                AzureCall.setOrFilterCondition "" "" ""])
      ∧ (map_find m "join" = some "and" →
        mysqlFilterCalls m
            = [MysqlCall.where_ (whereText m "first_attr" "first_con" "first_val"),
                MysqlCall.andWhere ""]
          ∧ azureFilterCalls m
            = [AzureCall.setFilterCondition
                  (azureFilter m "first_attr" "first_con" "first_val").property_name
                  (azureFilter m "first_attr" "first_con" "first_val").condition
                  (azureFilter m "first_attr" "first_con" "first_val").value,
                AzureCall.setAndFilterCondition "" "" ""])
      ∧ ((map_find m "join" = none
          ∨ ∃ join, map_find m "join" = some join ∧ join ≠ "or" ∧ join ≠ "and") →
        mysqlFilterCalls m
            = [MysqlCall.where_ (whereText m "first_attr" "first_con" "first_val")])
      ∧ ((map_find m "first_attr" = none ∨ map_find m "first_con" = none
          ∨ map_find m "first_val" = none) →
        (mysqlFilterCalls m).filter isWhereCall = [MysqlCall.where_ ""]) := by
  have w2 := whereText_partial m "second_attr" "second_con" "second_val" h2
  have f2 := azureFilter_partial m "second_attr" "second_con" "second_val" h2
  refine ⟨?_, ?_, ?_, ?_⟩
  · intro hj
    constructor
    · rw [mysqlFilterCalls_of_join m "or" hj, w2]
      rfl
    · rw [azureFilterCalls_of_join m "or" hj, f2]
      rfl
  · intro hj
    constructor
    · rw [mysqlFilterCalls_of_join m "and" hj, w2]
      rfl
    · rw [azureFilterCalls_of_join m "and" hj, f2]
      rfl
  · rintro (hj | ⟨join, hj, hor, hand⟩)
    · exact mysqlFilterCalls_of_no_join m hj
    · rw [mysqlFilterCalls_of_join m join hj, if_neg hor, if_neg hand]
      rfl
  · intro h1
    have w1 := whereText_partial m "first_attr" "first_con" "first_val" h1
    cases hj : map_find m "join" with
    | none =>
      rw [mysqlFilterCalls_of_no_join m hj, w1]
      rfl
    | some join =>
      rw [mysqlFilterCalls_of_join m join hj, w1]
      split_ifs <;> rfl

/-- C18, witness: for {first_attr=Name, first_con=eq, first_val=Bob,
second_attr=Age, join=banana} the second triple is incomplete and the filter
block makes the one call `where("Name = Bob")`. -/
theorem c18_unresolved_secondary_witness :
    map_find [("first_attr", "Name"), ("first_con", "eq"), ("first_val", "Bob"),
        ("second_attr", "Age"), ("join", "banana")] "second_con" = none
      ∧ mysqlFilterCalls [("first_attr", "Name"), ("first_con", "eq"), ("first_val", "Bob"),
        ("second_attr", "Age"), ("join", "banana")]
        = [MysqlCall.where_ "Name = Bob"] :=
  ⟨rfl, (c18_unresolved_secondary [("first_attr", "Name"), ("first_con", "eq"),
      ("first_val", "Bob"), ("second_attr", "Age"), ("join", "banana")]
      (Or.inr (Or.inl rfl))).2.2.1 (Or.inr ⟨"banana", rfl, by decide, by decide⟩)⟩

/-- C18, counterexample: for {first_attr=Name, first_con=eq, first_val=Bob,
second_attr=Age, join=or} the second triple lacks second_con and second_val, and
the query still receives an OR clause: `orWhere("")` is called. -/
theorem c18_counterexample :
    map_find [("first_attr", "Name"), ("first_con", "eq"), ("first_val", "Bob"),
        ("second_attr", "Age"), ("join", "or")] "second_con" = none
      ∧ getMysqlEntitiesQuery "T" none (some [("first_attr", "Name"), ("first_con", "eq"),
        ("first_val", "Bob"), ("second_attr", "Age"), ("join", "or")])
        = [MysqlCall.from_ "T", MysqlCall.where_ "Name = Bob", MysqlCall.orWhere ""]
      ∧ (getMysqlEntitiesQuery "T" none (some [("first_attr", "Name"), ("first_con", "eq"),
        ("first_val", "Bob"), ("second_attr", "Age"), ("join", "or")])).filter
          isExtraWhereCall ≠ [] :=
  ⟨rfl, rfl, by decide⟩

end Metadata

/-! ## Theorems on the serializers -/

namespace Metadata

open json

theorem set_index_length (a : List value) (v : value) : set_index a a.length v = a ++ [v] := by
  simp [set_index]

theorem azureEntityLoop_eq (rows : List table_entity) (acc : List value) :
    azureEntityLoop rows acc.length acc
      = acc ++ rows.map (fun ait => value.object (azureEntity ait)) := by
  induction rows generalizing acc with
  | nil => simp [azureEntityLoop]
  | cons r rest ih =>
    have hlen : acc.length + 1 = (acc ++ [value.object (azureEntity r)]).length := by simp
    rw [azureEntityLoop, set_index_length, hlen, ih]
    simp

theorem mysqlEntityLoop_eq (rows : List mysql_row) (acc : List value) :
    mysqlEntityLoop rows acc.length acc
      = acc ++ rows.map (fun ait => value.object (mysqlEntity ait)) := by
  induction rows generalizing acc with
  | nil => simp [mysqlEntityLoop]
  | cons r rest ih =>
    have hlen : acc.length + 1 = (acc ++ [value.object (mysqlEntity r)]).length := by simp
    rw [mysqlEntityLoop, set_index_length, hlen, ih]
    simp

theorem generateAzureEntityMeta_eq (rows : List table_entity) :
    generateAzureEntityMeta rows
      = value.object [("value",
          value.array (rows.map (fun ait => value.object (azureEntity ait))))] := by
  have h := azureEntityLoop_eq rows []
  simp only [List.length_nil, List.nil_append] at h
  simp [generateAzureEntityMeta, h, set_field]

theorem generateEntityMeta_eq (rows : List mysql_row) :
    generateEntityMeta rows
      = value.object [("value",
          value.array (rows.map (fun ait => value.object (mysqlEntity ait))))] := by
  have h := mysqlEntityLoop_eq rows []
  simp only [List.length_nil, List.nil_append] at h
  simp [generateEntityMeta, h, set_field]

/-- C19.  For every sequence of rows, each serializer returns the object with
the single field "value" holding an array that has as many elements as there are
rows, its i-th element being the object of the i-th row; for the empty sequence
both return {"value": []}. -/
theorem c19_value_array (azure_rows : List table_entity) (mysql_rows : List mysql_row) :
    (∃ entities, generateAzureEntityMeta azure_rows
          = value.object [("value", value.array entities)]
        ∧ entities.length = azure_rows.length
        ∧ ∀ i : Nat, entities[i]? = (azure_rows[i]?).map (fun ait => value.object (azureEntity ait)))
      ∧ (∃ entities, generateEntityMeta mysql_rows
          = value.object [("value", value.array entities)]
        ∧ entities.length = mysql_rows.length
        ∧ ∀ i : Nat, entities[i]? = (mysql_rows[i]?).map (fun ait => value.object (mysqlEntity ait)))
      ∧ generateAzureEntityMeta [] = value.object [("value", value.array [])]
      ∧ generateEntityMeta [] = value.object [("value", value.array [])] := by
  refine ⟨⟨_, generateAzureEntityMeta_eq azure_rows, by simp, ?_⟩,
    ⟨_, generateEntityMeta_eq mysql_rows, by simp, ?_⟩, rfl, rfl⟩
  · intro i
    simp
  · intro i
    simp

theorem data_lt_iff (a b : String) : a.data < b.data ↔ a < b :=
  String.lt_iff_toList_lt.symm

theorem mem_set_field (o : object) (key : String) (v : value) (p : String × value)
    (h : p ∈ set_field o key v) : p = (key, v) ∨ p ∈ o := by
  induction o with
  | nil =>
    simp only [set_field, List.mem_singleton] at h
    exact Or.inl h
  | cons x rest ih =>
    obtain ⟨k, y⟩ := x
    unfold set_field at h
    split_ifs at h with h1 h2
    · simp only [List.mem_cons] at h ⊢
      rcases h with h | h
      · exact Or.inl h
      · exact Or.inr (Or.inr h)
    · simp only [List.mem_cons] at h ⊢
      exact h
    · simp only [List.mem_cons] at h ⊢
      rcases h with h | h
      · exact Or.inr (Or.inl h)
      · rcases ih h with h | h
        · exact Or.inl h
        · exact Or.inr (Or.inr h)

theorem set_field_perm (o : object) (key : String) (v : value)
    (h : key ∉ o.map Prod.fst) : (set_field o key v).Perm ((key, v) :: o) := by
  induction o with
  | nil => exact List.Perm.refl _
  | cons x rest ih =>
    obtain ⟨k, y⟩ := x
    simp only [List.map_cons, List.mem_cons, not_or] at h
    unfold set_field
    split_ifs with h1 h2
    · exact absurd h1.symm h.1
    · exact List.Perm.refl _
    · exact ((ih h.2).cons (k, y)).trans (List.Perm.swap _ _ _)

theorem set_field_sorted (o : object) (key : String) (v : value)
    (h : o.Pairwise (fun a b => a.1 < b.1)) :
    (set_field o key v).Pairwise (fun a b => a.1 < b.1) := by
  induction o with
  | nil => simp [set_field]
  | cons x rest ih =>
    obtain ⟨k, y⟩ := x
    rw [List.pairwise_cons] at h
    unfold set_field
    split_ifs with h1 h2
    · rw [List.pairwise_cons]
      exact ⟨fun b hb => h1 ▸ h.1 b hb, h.2⟩
    · have hk : key < k := (data_lt_iff key k).1 h2
      rw [List.pairwise_cons, List.pairwise_cons]
      refine ⟨?_, h.1, h.2⟩
      intro b hb
      rcases List.mem_cons.1 hb with hb | hb
      · rw [hb]
        exact hk
      · exact lt_trans hk (h.1 b hb)
    · have hk : k < key := by
        rcases lt_trichotomy k key with h3 | h3 | h3
        · exact h3
        · exact absurd h3 h1
        · exact absurd ((data_lt_iff key k).2 h3) h2
      rw [List.pairwise_cons]
      refine ⟨?_, ih h.2⟩
      intro b hb
      rcases mem_set_field rest key v b hb with hb | hb
      · rw [hb]
        exact hk
      · exact h.1 b hb

theorem azureFold_perm (props : List (String × entity_property)) (acc : object)
    (hnd : (props.map Prod.fst).Nodup) (hdisj : ∀ p ∈ props, p.1 ∉ acc.map Prod.fst) :
    (props.foldl (fun entity pit => set_field entity pit.1 (azurePropertyValue pit.2)) acc).Perm
      (acc ++ props.map (fun pit => (pit.1, azurePropertyValue pit.2))) := by
  induction props generalizing acc with
  | nil => simp
  | cons p rest ih =>
    simp only [List.map_cons, List.nodup_cons] at hnd
    have hp : p.1 ∉ acc.map Prod.fst := hdisj p (List.mem_cons_self p rest)
    have hperm := set_field_perm acc p.1 (azurePropertyValue p.2) hp
    have hdisj2 : ∀ q ∈ rest,
        q.1 ∉ (set_field acc p.1 (azurePropertyValue p.2)).map Prod.fst := by
      intro q hq hmem
      have hmem2 := ((hperm.map Prod.fst).mem_iff).1 hmem
      simp only [List.map_cons, List.mem_cons] at hmem2
      rcases hmem2 with h | h
      · exact hnd.1 (h ▸ List.mem_map_of_mem Prod.fst hq)
      · exact hdisj q (List.mem_cons_of_mem p hq) h
    rw [List.foldl_cons]
    refine (ih _ hnd.2 hdisj2).trans ?_
    refine (hperm.append_right _).trans ?_
    simp only [List.map_cons, List.cons_append]
    exact List.perm_middle.symm

theorem azureFold_sorted (props : List (String × entity_property)) (acc : object)
    (h : acc.Pairwise (fun a b => a.1 < b.1)) :
    (props.foldl (fun entity pit => set_field entity pit.1 (azurePropertyValue pit.2))
      acc).Pairwise (fun a b => a.1 < b.1) := by
  induction props generalizing acc with
  | nil => exact h
  | cons p rest ih =>
    rw [List.foldl_cons]
    exact ih _ (set_field_sorted acc p.1 _ h)

/-- C20, as amended.  For every wide-column row whose property names are
pairwise distinct and distinct from Timestamp, PartitionKey and RowKey, the
fields of the emitted object are exactly the row's properties with their JSON
values together with Timestamp (the ISO-8601 string of the row's timestamp),
PartitionKey and RowKey, each once; they are stored in ascending order of their
names, not in the order of insertion. -/
theorem c20_entity_fields (ait : table_entity)
    (hmeta : ∀ p ∈ ait.properties,
      p.1 ≠ "Timestamp" ∧ p.1 ≠ "PartitionKey" ∧ p.1 ≠ "RowKey")
    (hnd : (ait.properties.map Prod.fst).Nodup) :
    (azureEntity ait).Perm (azureFields ait)
      ∧ (azureEntity ait).Pairwise (fun a b => a.1 < b.1)
      ∧ generateAzureEntityMeta [ait]
        = value.object [("value", value.array [value.object (azureEntity ait)])] := by
  have hF := azureFold_perm ait.properties [] hnd (fun _ _ h => by simp at h)
  simp only [List.nil_append] at hF
  have hFkeys : ∀ key,
      key ∈ (ait.properties.foldl
        (fun entity pit => set_field entity pit.1 (azurePropertyValue pit.2)) []).map Prod.fst
      → ∃ p ∈ ait.properties, p.1 = key := by
    intro key hkey
    have h2 := ((hF.map Prod.fst).mem_iff).1 hkey
    simp only [List.map_map, List.mem_map, Function.comp] at h2
    obtain ⟨p, hp, hpk⟩ := h2
    exact ⟨p, hp, hpk⟩
  have hT := set_field_perm _ "Timestamp"
    (value.string (ait.timestamp.to_string date_format.ISO_8601)) (fun hmem => by
      obtain ⟨p, hp, hpk⟩ := hFkeys _ hmem
      exact (hmeta p hp).1 hpk)
  have hP := set_field_perm _ "PartitionKey" (value.string ait.partition_key) (fun hmem => by
      have h2 := ((hT.map Prod.fst).mem_iff).1 hmem
      simp only [List.map_cons, List.mem_cons] at h2
      rcases h2 with h | h
      · revert h; decide
      · obtain ⟨p, hp, hpk⟩ := hFkeys _ h
        exact (hmeta p hp).2.1 hpk)
  have hR := set_field_perm _ "RowKey" (value.string ait.row_key) (fun hmem => by
      have h2 := ((hP.map Prod.fst).mem_iff).1 hmem
      simp only [List.map_cons, List.mem_cons] at h2
      rcases h2 with h | h
      · revert h; decide
      · have h3 := ((hT.map Prod.fst).mem_iff).1 h
        simp only [List.map_cons, List.mem_cons] at h3
        rcases h3 with h | h
        · revert h; decide
        · obtain ⟨p, hp, hpk⟩ := hFkeys _ h
          exact (hmeta p hp).2.2 hpk)
  refine ⟨?_, ?_, ?_⟩
  · unfold azureEntity azureFields
    refine hR.trans ?_
    refine ((hP.trans ((hT.trans (hF.cons _)).cons _)).cons _).trans ?_
    refine (@List.perm_append_comm _ [_, _, _] _).trans ?_
    exact List.Perm.append_left _ (List.reverse_perm
      [("Timestamp", value.string (ait.timestamp.to_string date_format.ISO_8601)),
        ("PartitionKey", value.string ait.partition_key),
        ("RowKey", value.string ait.row_key)])
  · unfold azureEntity
    exact set_field_sorted _ _ _ (set_field_sorted _ _ _ (set_field_sorted _ _ _
      (azureFold_sorted ait.properties [] List.Pairwise.nil)))
  · rw [generateAzureEntityMeta_eq]
    rfl

/-- C20, witness: the row of the specification's example is serialized as
{"value":[{"Name":"Bob","PartitionKey":"P1","RowKey":"R1",
"Timestamp":"2024-01-01T00:00:00Z"}]}. -/
theorem c20_entity_fields_witness :
    generateAzureEntityMeta [bobEntity]
      = value.object [("value", value.array [value.object
          [("Name", value.string "Bob"), ("PartitionKey", value.string "P1"),
            ("RowKey", value.string "R1"),
            ("Timestamp", value.string "2024-01-01T00:00:00Z")]])] :=
  (c20_entity_fields bobEntity
    (by
      intro p hp
      simp only [bobEntity, List.mem_singleton] at hp
      rw [hp]
      decide)
    (by simp [bobEntity])).2.2

/-- C20, counterexample: the row of the specification's example has one
property, Name, and the field names of the emitted object come in the order
Name, PartitionKey, RowKey, Timestamp, not Name, Timestamp, PartitionKey,
RowKey. -/
theorem c20_counterexample :
    bobEntity.properties.map Prod.fst = ["Name"]
      ∧ (azureEntity bobEntity).map Prod.fst = ["Name", "PartitionKey", "RowKey", "Timestamp"]
      ∧ (azureEntity bobEntity).map Prod.fst
        ≠ bobEntity.properties.map Prod.fst ++ ["Timestamp", "PartitionKey", "RowKey"] :=
  ⟨rfl, rfl, by decide⟩

end Metadata

/-! ## Fields of a serialized object -/

namespace Metadata

open json

theorem find_set_field_same (o : object) (key : String) (v : value) :
    find (set_field o key v) key = some v := by
  induction o with
  | nil => simp [set_field, find]
  | cons x rest ih =>
    obtain ⟨k, y⟩ := x
    unfold set_field
    split_ifs with h1 h2
    · simp [find]
    · simp [find]
    · simp [find, h1, ih]

theorem find_set_field_other (o : object) (key : String) (v : value) (other : String)
    (h : other ≠ key) : find (set_field o key v) other = find o other := by
  induction o with
  | nil => simp [set_field, find, Ne.symm h]
  | cons x rest ih =>
    obtain ⟨k, y⟩ := x
    unfold set_field
    split_ifs with h1 h2
    · simp [find, Ne.symm h, h1]
    · simp [find, Ne.symm h]
    · by_cases hk : k = other
      · simp [find, hk]
      · simp [find, hk, ih]

theorem find_some_mem (o : object) (key : String) (v : value) (h : find o key = some v) :
    (key, v) ∈ o := by
  induction o with
  | nil => simp [find] at h
  | cons x rest ih =>
    obtain ⟨k, y⟩ := x
    simp only [find] at h
    split_ifs at h with hk
    · simp only [Option.some.injEq] at h
      simp [← hk, h]
    · exact List.mem_cons_of_mem _ (ih h)

theorem keys_nodup_of_sorted (o : object) (h : o.Pairwise (fun a b => a.1 < b.1)) :
    (o.map Prod.fst).Nodup := by
  rw [List.Nodup, List.pairwise_map]
  exact h.imp (fun hab => ne_of_lt hab)

theorem find_of_mem_nodup (o : object) (key : String) (v : value)
    (hnd : (o.map Prod.fst).Nodup) (h : (key, v) ∈ o) : find o key = some v := by
  induction o with
  | nil => simp at h
  | cons x rest ih =>
    obtain ⟨k, y⟩ := x
    simp only [List.map_cons, List.nodup_cons] at hnd
    simp only [List.mem_cons, Prod.mk.injEq] at h
    simp only [find]
    rcases h with ⟨h1, h2⟩ | h
    · simp [h1, h2]
    · have hk : ¬ k = key := by
        intro hk
        exact hnd.1 (hk ▸ List.mem_map_of_mem Prod.fst h)
      simp [hk, ih hnd.2 h]

theorem azureEntity_sorted (ait : table_entity) :
    (azureEntity ait).Pairwise (fun a b => a.1 < b.1) := by
  unfold azureEntity
  exact set_field_sorted _ _ _ (set_field_sorted _ _ _ (set_field_sorted _ _ _
    (azureFold_sorted ait.properties [] List.Pairwise.nil)))

theorem azureEntity_rowKey (ait : table_entity) :
    find (azureEntity ait) "RowKey" = some (value.string ait.row_key) := by
  unfold azureEntity
  exact find_set_field_same _ _ _

theorem azureEntity_partitionKey (ait : table_entity) :
    find (azureEntity ait) "PartitionKey" = some (value.string ait.partition_key) := by
  unfold azureEntity
  rw [find_set_field_other _ _ _ _ (by decide)]
  exact find_set_field_same _ _ _

theorem azureEntity_timestamp (ait : table_entity) :
    find (azureEntity ait) "Timestamp"
      = some (value.string (ait.timestamp.to_string date_format.ISO_8601)) := by
  unfold azureEntity
  rw [find_set_field_other _ _ _ _ (by decide), find_set_field_other _ _ _ _ (by decide)]
  exact find_set_field_same _ _ _

theorem count_key_of_find (o : object) (key : String) (v : value)
    (hs : o.Pairwise (fun a b => a.1 < b.1)) (h : find o key = some v) :
    (o.map Prod.fst).count key = 1 :=
  List.count_eq_one_of_mem (keys_nodup_of_sorted o hs)
    (List.mem_map_of_mem Prod.fst (find_some_mem o key v h))

/-- C21.  For every wide-column row, whatever its properties are named, the
fields Timestamp, PartitionKey and RowKey of its object hold the ISO-8601 string
of the row's timestamp, its partition key and its row key, and each of the
three names occurs exactly once among the fields of the object. -/
theorem c21_metadata_wins (ait : table_entity) :
    generateAzureEntityMeta [ait]
        = value.object [("value", value.array [value.object (azureEntity ait)])]
      ∧ find (azureEntity ait) "Timestamp"
        = some (value.string (ait.timestamp.to_string date_format.ISO_8601))
      ∧ find (azureEntity ait) "PartitionKey" = some (value.string ait.partition_key)
      ∧ find (azureEntity ait) "RowKey" = some (value.string ait.row_key)
      ∧ ((azureEntity ait).map Prod.fst).count "Timestamp" = 1
      ∧ ((azureEntity ait).map Prod.fst).count "PartitionKey" = 1
      ∧ ((azureEntity ait).map Prod.fst).count "RowKey" = 1 := by
  refine ⟨?_, azureEntity_timestamp ait, azureEntity_partitionKey ait, azureEntity_rowKey ait,
    count_key_of_find _ _ _ (azureEntity_sorted ait) (azureEntity_timestamp ait),
    count_key_of_find _ _ _ (azureEntity_sorted ait) (azureEntity_partitionKey ait),
    count_key_of_find _ _ _ (azureEntity_sorted ait) (azureEntity_rowKey ait)⟩
  rw [generateAzureEntityMeta_eq]
  rfl

end Metadata

namespace Metadata

open json

theorem find_set_field_isSome (o : object) (key : String) (v : value) (other : String) :
    (find (set_field o key v) other).isSome = true
      ↔ other = key ∨ (find o other).isSome = true := by
  by_cases h : other = key
  · rw [h, find_set_field_same]
    simp
  · rw [find_set_field_other o key v other h]
    simp [h]

theorem propertyFold_isSome {β : Type} (g : β → value) (props : List (String × β))
    (acc : object) (key : String) :
    (find (props.foldl (fun entity pit => set_field entity pit.1 (g pit.2)) acc) key).isSome
        = true
      ↔ (find acc key).isSome = true ∨ key ∈ props.map Prod.fst := by
  induction props generalizing acc with
  | nil => simp
  | cons p rest ih =>
    rw [List.foldl_cons, ih, find_set_field_isSome]
    simp only [List.map_cons, List.mem_cons]
    constructor
    · rintro ((h | h) | h)
      · exact Or.inr (Or.inl h)
      · exact Or.inl h
      · exact Or.inr (Or.inr h)
    · rintro (h | h | h)
      · exact Or.inl (Or.inr h)
      · exact Or.inl (Or.inl h)
      · exact Or.inr h

theorem propertyFold_perm {β : Type} (g : β → value) (props : List (String × β))
    (acc : object) (hnd : (props.map Prod.fst).Nodup)
    (hdisj : ∀ p ∈ props, p.1 ∉ acc.map Prod.fst) :
    (props.foldl (fun entity pit => set_field entity pit.1 (g pit.2)) acc).Perm
      (acc ++ props.map (fun pit => (pit.1, g pit.2))) := by
  induction props generalizing acc with
  | nil => simp
  | cons p rest ih =>
    simp only [List.map_cons, List.nodup_cons] at hnd
    have hp : p.1 ∉ acc.map Prod.fst := hdisj p (List.mem_cons_self p rest)
    have hperm := set_field_perm acc p.1 (g p.2) hp
    have hdisj2 : ∀ q ∈ rest, q.1 ∉ (set_field acc p.1 (g p.2)).map Prod.fst := by
      intro q hq hmem
      have hmem2 := ((hperm.map Prod.fst).mem_iff).1 hmem
      simp only [List.map_cons, List.mem_cons] at hmem2
      rcases hmem2 with h | h
      · exact hnd.1 (h ▸ List.mem_map_of_mem Prod.fst hq)
      · exact hdisj q (List.mem_cons_of_mem p hq) h
    rw [List.foldl_cons]
    refine (ih _ hnd.2 hdisj2).trans ?_
    refine (hperm.append_right _).trans ?_
    simp only [List.map_cons, List.cons_append]
    exact List.perm_middle.symm

theorem propertyFold_sorted {β : Type} (g : β → value) (props : List (String × β))
    (acc : object) (h : acc.Pairwise (fun a b => a.1 < b.1)) :
    (props.foldl (fun entity pit => set_field entity pit.1 (g pit.2)) acc).Pairwise
      (fun a b => a.1 < b.1) := by
  induction props generalizing acc with
  | nil => exact h
  | cons p rest ih =>
    rw [List.foldl_cons]
    exact ih _ (set_field_sorted acc p.1 _ h)

theorem mysqlEntity_isSome (row : mysql_row) (key : String) :
    (find (mysqlEntity row) key).isSome = true ↔ key ∈ row.properties.map Prod.fst := by
  unfold mysqlEntity
  simp only [propertyFold_isSome]
  simp [find]

theorem azureEntity_isSome_of_mem (ait : table_entity) (p : String × entity_property)
    (hp : p ∈ ait.properties) : (find (azureEntity ait) p.1).isSome = true := by
  unfold azureEntity
  simp only [find_set_field_isSome, propertyFold_isSome]
  exact Or.inr (Or.inr (Or.inr (Or.inr (List.mem_map_of_mem Prod.fst hp))))

theorem mysqlEntity_find (row : mysql_row) (p : String × mysql_property)
    (hnd : (row.properties.map Prod.fst).Nodup) (hp : p ∈ row.properties) :
    find (mysqlEntity row) p.1 = some (mysqlPropertyValue p.2) := by
  have hperm := propertyFold_perm mysqlPropertyValue row.properties [] hnd
    (fun _ _ h => by simp at h)
  have hsorted := propertyFold_sorted mysqlPropertyValue row.properties []
    List.Pairwise.nil
  simp only [List.nil_append] at hperm
  apply find_of_mem_nodup _ _ _ (keys_nodup_of_sorted _ hsorted)
  exact (hperm.mem_iff).2 (List.mem_map_of_mem (fun pit => (pit.1, mysqlPropertyValue pit.2)) hp)

/-- C23.  The switch of `generateAzureEntityMeta` gives a JSON string for the
kinds string, datetime, binary, guid and for every kind it does not name, a JSON
number for int32, int64 and double, a JSON boolean for boolean.  The switch of
`generateEntityMeta` gives a JSON number for int32, int64 and double and the
JSON string of `string_value()` for every other kind.  Every property of a row
is a field of the row's object, and when the property names are distinct (and,
for a wide-column row, none is Timestamp, PartitionKey or RowKey) the field
holds the value the switch gives for that property. -/
theorem c23_kind_mapping :
    (∀ p : entity_property,
        ((p.property_type = edm_type.string ∨ p.property_type = edm_type.datetime
            ∨ p.property_type = edm_type.binary ∨ p.property_type = edm_type.guid
            ∨ ∃ code, p.property_type = edm_type.other code) →
          (azurePropertyValue p).is_string = true)
        ∧ ((p.property_type = edm_type.int32 ∨ p.property_type = edm_type.int64
            ∨ p.property_type = edm_type.double_floating_point) →
          (azurePropertyValue p).is_number = true)
        ∧ (p.property_type = edm_type.boolean → (azurePropertyValue p).is_boolean = true))
      ∧ (∀ p : mysql_property,
        ((p.property_type = myedm_type.int32 ∨ p.property_type = myedm_type.int64
            ∨ p.property_type = myedm_type.double_floating_point) →
          (mysqlPropertyValue p).is_number = true)
        ∧ ((∃ code, p.property_type = myedm_type.other code) →
          mysqlPropertyValue p = value.string p.string_value))
      ∧ (∀ (ait : table_entity) (p : String × entity_property), p ∈ ait.properties →
        (find (azureEntity ait) p.1).isSome = true)
      ∧ (∀ (row : mysql_row) (p : String × mysql_property), p ∈ row.properties →
        (find (mysqlEntity row) p.1).isSome = true)
      ∧ (∀ (ait : table_entity) (p : String × entity_property),
        (ait.properties.map Prod.fst).Nodup →
        (∀ q ∈ ait.properties, q.1 ≠ "Timestamp" ∧ q.1 ≠ "PartitionKey" ∧ q.1 ≠ "RowKey") →
        p ∈ ait.properties → find (azureEntity ait) p.1 = some (azurePropertyValue p.2))
      ∧ (∀ (row : mysql_row) (p : String × mysql_property),
        (row.properties.map Prod.fst).Nodup → p ∈ row.properties →
        find (mysqlEntity row) p.1 = some (mysqlPropertyValue p.2)) := by
  refine ⟨?_, ?_, azureEntity_isSome_of_mem, ?_, ?_, fun row p hnd hp =>
    mysqlEntity_find row p hnd hp⟩
  · intro p
    refine ⟨?_, ?_, ?_⟩
    · rintro (h | h | h | h | ⟨code, h⟩) <;> simp [azurePropertyValue, h, value.is_string]
    · rintro (h | h | h) <;> simp [azurePropertyValue, h, value.is_number]
    · intro h
      simp [azurePropertyValue, h, value.is_boolean]
  · intro p
    refine ⟨?_, ?_⟩
    · rintro (h | h | h) <;> simp [mysqlPropertyValue, h, value.is_number]
    · rintro ⟨code, h⟩
      simp [mysqlPropertyValue, h]
  · intro row p hp
    exact (mysqlEntity_isSome row p.1).2 (List.mem_map_of_mem Prod.fst hp)
  · intro ait p hnd hmeta hp
    have hperm := azureFold_perm ait.properties [] hnd (fun _ _ h => by simp at h)
    simp only [List.nil_append] at hperm
    have hmem : (p.1, azurePropertyValue p.2) ∈ ait.properties.foldl
        (fun entity pit => set_field entity pit.1 (azurePropertyValue pit.2)) [] :=
      (hperm.mem_iff).2
        (List.mem_map_of_mem (fun pit => (pit.1, azurePropertyValue pit.2)) hp)
    have hfold := find_of_mem_nodup _ _ _ (keys_nodup_of_sorted _
      (azureFold_sorted ait.properties [] List.Pairwise.nil)) hmem
    unfold azureEntity
    rw [find_set_field_other _ _ _ _ (hmeta p hp).2.2,
      find_set_field_other _ _ _ _ (hmeta p hp).2.1,
      find_set_field_other _ _ _ _ (hmeta p hp).1]
    exact hfold

/-- C24, the code at a failing input.  The row `newYearEntity` has a datetime
property `When` that holds the same instant as the row's timestamp.  In its
object `When` is "Mon, 01 Jan 2024 00:00:00 GMT", the RFC 1123 rendering that
`to_string()` gives by default, while `Timestamp` is "2024-01-01T00:00:00Z", the
ISO-8601 rendering: the two strings differ. -/
theorem c24_datetime_property_rfc1123 :
    generateAzureEntityMeta [newYearEntity]
        = value.object [("value", value.array [value.object
            [("PartitionKey", value.string "P1"), ("RowKey", value.string "R1"),
              ("Timestamp", value.string "2024-01-01T00:00:00Z"),
              ("When", value.string "Mon, 01 Jan 2024 00:00:00 GMT")]])]
      ∧ (∀ p : entity_property, p.property_type = edm_type.datetime →
        azurePropertyValue p
          = value.string (p.datetime_value.to_string date_format.RFC_1123)) := by
  refine ⟨rfl, ?_⟩
  intro p h
  simp [azurePropertyValue, h]

end Metadata

/-! ## The two ad-hoc filter paths side by side -/

namespace Metadata

theorem whereText_eq_conditionText (m : List (String × String)) (attr con val : String) :
    whereText m attr con val = conditionText (resolveTriple m attr con val) := by
  unfold whereText resolveTriple
  cases map_find m attr <;> cases map_find m con <;> cases map_find m val <;> rfl

theorem azureFilter_eq_passedTriple (m : List (String × String)) (attr con val : String) :
    ((azureFilter m attr con val).property_name, (azureFilter m attr con val).condition,
        (azureFilter m attr con val).value)
      = passedTriple (resolveTriple m attr con val) := by
  unfold azureFilter resolveTriple
  cases map_find m attr <;> cases map_find m con <;> cases map_find m val <;> rfl

theorem combinator_or_iff (m : List (String × String)) :
    combinator m = some Combinator.or_ ↔ map_find m "join" = some "or" := by
  unfold combinator
  cases map_find m "join" with
  | none => simp
  | some join =>
    by_cases h1 : join = "or"
    · simp [h1]
    · by_cases h2 : join = "and"
      · simp [h2]
      · simp [h1, h2]

theorem combinator_and_iff (m : List (String × String)) :
    combinator m = some Combinator.and_ ↔ map_find m "join" = some "and" := by
  unfold combinator
  cases map_find m "join" with
  | none => simp
  | some join =>
    by_cases h1 : join = "or"
    · simp [h1]
    · by_cases h2 : join = "and"
      · simp [h2]
      · simp [h1, h2]

/-- C25, as amended.  On every filter-parameter map the two paths resolve the
same first and second triple (a triple is resolved exactly when its three keys
are present), make one primary call, and attach the secondary with OR exactly
when join = "or" and with AND exactly when join = "and".  The wide-column path
passes on the three strings of a resolved triple and three empty strings for an
unresolved one; the relational text is attribute ++ getCondition(code) ++ value
for a resolved triple and the empty string for an unresolved one. -/
theorem c25_paths_agree (m : List (String × String)) :
    mysqlFilterCalls m
        = MysqlCall.where_
            (conditionText (resolveTriple m "first_attr" "first_con" "first_val"))
          :: (match combinator m with
            | some Combinator.or_ => [MysqlCall.orWhere
                (conditionText (resolveTriple m "second_attr" "second_con" "second_val"))]
            | some Combinator.and_ => [MysqlCall.andWhere
                (conditionText (resolveTriple m "second_attr" "second_con" "second_val"))]
            | none => [])
      ∧ azureFilterCalls m
        = AzureCall.setFilterCondition
            (passedTriple (resolveTriple m "first_attr" "first_con" "first_val")).1
            (passedTriple (resolveTriple m "first_attr" "first_con" "first_val")).2.1
            (passedTriple (resolveTriple m "first_attr" "first_con" "first_val")).2.2
          :: (match combinator m with
            | some Combinator.or_ => [AzureCall.setOrFilterCondition
                (passedTriple (resolveTriple m "second_attr" "second_con" "second_val")).1
                (passedTriple (resolveTriple m "second_attr" "second_con" "second_val")).2.1
                (passedTriple (resolveTriple m "second_attr" "second_con" "second_val")).2.2]
            | some Combinator.and_ => [AzureCall.setAndFilterCondition
                (passedTriple (resolveTriple m "second_attr" "second_con" "second_val")).1
                (passedTriple (resolveTriple m "second_attr" "second_con" "second_val")).2.1
                (passedTriple (resolveTriple m "second_attr" "second_con" "second_val")).2.2]
            | none => [])
      ∧ (combinator m = some Combinator.or_ ↔ map_find m "join" = some "or")
      ∧ (combinator m = some Combinator.and_ ↔ map_find m "join" = some "and")
      ∧ (∀ attr con val a c v, resolveTriple m attr con val = some (a, c, v)
        ↔ (map_find m attr = some a ∧ map_find m con = some c ∧ map_find m val = some v)) := by
  refine ⟨?_, ?_, combinator_or_iff m, combinator_and_iff m, ?_⟩
  · unfold mysqlFilterCalls combinator
    simp only [whereText_eq_conditionText]
    cases map_find m "join" with
    | none => rfl
    | some join =>
      by_cases h1 : join = "or"
      · simp [h1]
      · by_cases h2 : join = "and"
        · simp [h2]
        · simp [h1, h2]
  · have e1 := azureFilter_eq_passedTriple m "first_attr" "first_con" "first_val"
    have e2 := azureFilter_eq_passedTriple m "second_attr" "second_con" "second_val"
    unfold azureFilterCalls combinator
    rw [← e1, ← e2]
    cases map_find m "join" with
    | none => rfl
    | some join =>
      by_cases h1 : join = "or"
      · simp [h1]
      · by_cases h2 : join = "and"
        · simp [h2]
        · simp [h1, h2]
  · intro attr con val a c v
    unfold resolveTriple
    cases map_find m attr <;> cases map_find m con <;> cases map_find m val <;> simp

/-- C25, counterexample: for the empty filter-parameter map the wide-column
path passes on ("", "", "") and the relational path calls `where("")`; the text
is not attribute ++ getCondition(code) ++ value of the triple passed on, which
is " = ". -/
theorem c25_counterexample :
    azureFilterCalls [] = [AzureCall.setFilterCondition "" "" ""]
      ∧ mysqlFilterCalls [] = [MysqlCall.where_ ""]
      ∧ mysqlFilterCalls [] ≠ [MysqlCall.where_ ("" ++ getCondition "" ++ "")] :=
  ⟨rfl, rfl, by decide⟩

end Metadata

/-! ## Theorems on the OAuth1 normalized parameters -/

namespace oauth1_config

theorem insertSorted_perm (x : String) (l : List String) :
    (insertSorted x l).Perm (x :: l) := by
  induction l with
  | nil => exact List.Perm.refl _
  | cons y ys ih =>
    unfold insertSorted
    split_ifs with h
    · exact (ih.cons y).trans (List.Perm.swap _ _ _)
    · exact List.Perm.refl _

theorem sort_perm (l : List String) : (sort l).Perm l := by
  induction l with
  | nil => exact List.Perm.refl _
  | cons x xs ih => exact (insertSorted_perm x (sort xs)).trans (ih.cons x)

theorem insertSorted_sorted (x : String) (l : List String)
    (h : l.Pairwise (fun a b => a ≤ b)) : (insertSorted x l).Pairwise (fun a b => a ≤ b) := by
  induction l with
  | nil => simp [insertSorted]
  | cons y ys ih =>
    rw [List.pairwise_cons] at h
    unfold insertSorted
    split_ifs with hlt
    · have hyx : y < x := (Metadata.data_lt_iff y x).1 hlt
      rw [List.pairwise_cons]
      refine ⟨?_, ih h.2⟩
      intro b hb
      rcases List.mem_cons.1 (((insertSorted_perm x ys).mem_iff).1 hb) with hb | hb
      · rw [hb]
        exact le_of_lt hyx
      · exact h.1 b hb
    · have hxy : x ≤ y := not_lt.1 (fun hyx => hlt ((Metadata.data_lt_iff y x).2 hyx))
      rw [List.pairwise_cons, List.pairwise_cons]
      refine ⟨?_, h.1, h.2⟩
      intro b hb
      rcases List.mem_cons.1 hb with hb | hb
      · rw [hb]
        exact hxy
      · exact le_trans hxy (h.1 b hb)

theorem sort_sorted (l : List String) : (sort l).Pairwise (fun a b => a ≤ b) := by
  induction l with
  | nil => exact List.Pairwise.nil
  | cons x xs ih => exact insertSorted_sorted x (sort xs) ih

theorem pushedQueries_perm (strings : oauth1_strings) (config : oauth1_config)
    (queries_map : List (String × String)) (state : oauth1_state) :
    (pushedQueries strings config queries_map state).Perm
      (expectedItems strings config queries_map state) := by
  unfold pushedQueries expectedItems
  by_cases ht : config.access_token = "" <;> by_cases he : state.extra_key = ""
  · simp [ht, he]
  · simp [ht, he]
  · simp only [ht, he, not_false_eq_true, not_true_eq_false, if_true, if_false,
      List.append_assoc, List.cons_append, List.nil_append, List.append_nil]
    refine List.Perm.append_left _ (List.Perm.cons _ (List.Perm.cons _ ?_))
    exact (@List.perm_middle _ (strings.token ++ "=" ++ config.access_token)
      [strings.signature_method ++ "=" ++ config.method,
        strings.timestamp ++ "=" ++ state.timestamp,
        strings.nonce ++ "=" ++ state.nonce] []).symm
  · simp only [ht, he, not_false_eq_true, not_true_eq_false, if_true, if_false,
      List.append_assoc, List.cons_append, List.nil_append, List.append_nil]
    refine List.Perm.append_left _ (List.Perm.cons _ (List.Perm.cons _ ?_))
    exact (@List.perm_middle _ (strings.token ++ "=" ++ config.access_token)
      [strings.signature_method ++ "=" ++ config.method,
        strings.timestamp ++ "=" ++ state.timestamp,
        strings.nonce ++ "=" ++ state.nonce]
      [state.extra_key ++ "=" ++ state.extra_value]).symm

theorem intercalate_go (acc : String) (l : List String) :
    String.intercalate.go acc "&" l
      = (match l with
        | [] => acc
        | _ :: _ => acc ++ "&" ++ joinQueries l) := by
  induction l generalizing acc with
  | nil => rfl
  | cons x rest ih =>
    rw [String.intercalate.go, ih]
    cases rest with
    | nil => rfl
    | cons y ys => simp [joinQueries, String.append_assoc]

theorem joinQueries_eq_intercalate (l : List String) :
    joinQueries l = String.intercalate "&" l := by
  cases l with
  | nil => rfl
  | cons x rest =>
    rw [String.intercalate, intercalate_go]
    cases rest <;> simp [joinQueries, String.append_assoc]

theorem joinQueries_head (first : String) (rest : List String) :
    ∃ tail, joinQueries (first :: rest) = first ++ tail := by
  cases rest with
  | nil => exact ⟨"", by simp [joinQueries]⟩
  | cons y ys => exact ⟨"&" ++ joinQueries (y :: ys), by simp [joinQueries, String.append_assoc]⟩

theorem joinQueries_last (l : List String) (last : String) (h : l.getLast? = some last) :
    ∃ front, joinQueries l = front ++ last := by
  induction l with
  | nil => simp at h
  | cons x rest ih =>
    cases rest with
    | nil =>
      simp only [List.getLast?_singleton, Option.some.injEq] at h
      exact ⟨"", by simp [joinQueries, h]⟩
    | cons y ys =>
      rw [List.getLast?_cons_cons] at h
      obtain ⟨front, hf⟩ := ih h
      exact ⟨x ++ "&" ++ front, by simp [joinQueries, hf, String.append_assoc]⟩

/-- C26.  For every query map, configuration and state, the string that
`_build_normalized_parameters` hands to the percent-encoder is the "&"-join of a
list of items that is in ascending order and is a permutation of: the items
name=value of the query parameters, the items for version (=1.0), consumer key,
signature method, timestamp and nonce, the token item if and only if the access
token is not empty, and the extra item if and only if the extra key is not
empty.  The list is not empty, and the string begins with its first item and
ends with its last item: no "&" is put before the first or after the last. -/
theorem c26_normalized_parameters (encode : String → String) (strings : oauth1_strings)
    (config : oauth1_config) (queries_map : List (String × String)) (state : oauth1_state) :
    _build_normalized_parameters encode strings config queries_map state
        = encode (normalizedParameters strings config queries_map state)
      ∧ ∃ sorted : List String,
        normalizedParameters strings config queries_map state = String.intercalate "&" sorted
          ∧ sorted.Perm (expectedItems strings config queries_map state)
          ∧ sorted.Pairwise (fun a b => a ≤ b)
          ∧ sorted ≠ []
          ∧ (∀ first, sorted.head? = some first →
            ∃ tail, normalizedParameters strings config queries_map state = first ++ tail)
          ∧ (∀ last, sorted.getLast? = some last →
            ∃ front, normalizedParameters strings config queries_map state = front ++ last) := by
  refine ⟨rfl, sort (pushedQueries strings config queries_map state),
    joinQueries_eq_intercalate _,
    (sort_perm _).trans (pushedQueries_perm strings config queries_map state),
    sort_sorted _, ?_, ?_, ?_⟩
  · intro hnil
    have hperm := (sort_perm (pushedQueries strings config queries_map state)).trans
      (pushedQueries_perm strings config queries_map state)
    rw [hnil] at hperm
    have hlen := hperm.length_eq
    simp only [expectedItems, List.length_append, List.length_cons, List.length_nil] at hlen
    omega
  · intro first hfirst
    unfold normalizedParameters
    cases hs : sort (pushedQueries strings config queries_map state) with
    | nil => rw [hs] at hfirst; simp at hfirst
    | cons x rest =>
      rw [hs] at hfirst
      simp only [List.head?_cons, Option.some.injEq] at hfirst
      rw [← hfirst]
      exact joinQueries_head x rest
  · intro last hlast
    exact joinQueries_last _ last hlast

/-- C26, witness: with the query a=1, b=2 given in the order b, a, consumer key
"key", method "HMAC-SHA1", timestamp "123", nonce "abc", no access token and no
extra key, the string is the seven items in ascending order, joined by "&". -/
theorem c26_normalized_parameters_witness :
    normalizedParameters standardStrings
        { consumer_key := "key", method := "HMAC-SHA1", access_token := "" }
        [("b", "2"), ("a", "1")]
        { timestamp := "123", nonce := "abc", extra_key := "", extra_value := "" }
      = "a=1&b=2&oauth_consumer_key=key&oauth_nonce=abc&oauth_signature_method=HMAC-SHA1"
        ++ "&oauth_timestamp=123&oauth_version=1.0"
      ∧ _build_normalized_parameters id standardStrings
        { consumer_key := "key", method := "HMAC-SHA1", access_token := "" }
        [("b", "2"), ("a", "1")]
        { timestamp := "123", nonce := "abc", extra_key := "", extra_value := "" }
      = id (normalizedParameters standardStrings
        { consumer_key := "key", method := "HMAC-SHA1", access_token := "" }
        [("b", "2"), ("a", "1")]
        { timestamp := "123", nonce := "abc", extra_key := "", extra_value := "" }) :=
  ⟨by decide, (c26_normalized_parameters id standardStrings
    { consumer_key := "key", method := "HMAC-SHA1", access_token := "" }
    [("b", "2"), ("a", "1")]
    { timestamp := "123", nonce := "abc", extra_key := "", extra_value := "" }).1⟩

end oauth1_config
